import Mathlib

/-!
# KORAL: the CLATCH pattern table and the test driver

A verification development over a shallow embedding of
`include/koral/CLATCH.h` (the constant pattern table `triplets` and the
declaration of `CLATCH`) and of `test/src/main.cpp` (the driver `main`).
-/

namespace koral

/-! ## The pattern table (`CLATCH.h`) -/

/-- Declared element count of `constexpr uint16_t triplets[2048]`. -/
def tripletsDeclaredSize : Nat := 2048

/-- Number of table records, one per descriptor bit (the 512-bit LATCH descriptor). -/
def descriptorBitCount : Nat := 512

/-- The brace initializer of `constexpr uint16_t triplets[2048]`, value by value, in source order. -/
def triplets : List Nat := [
  2184,3253,596,0,3262,1099,2762,0,2560,3204,1328,0,2239,2969,3607,0,1414,2839,835,0,1131,675,2500,0,3273,1349,609,0,1698,3504,1852,0,
  2643,1542,2539,0,3408,2928,959,0,1481,3581,697,0,1106,610,3495,0,2762,2028,744,0,1980,483,3570,0,3000,748,1484,0,2242,1467,3823,0,
  603,810,2618,0,2716,2625,766,0,3429,471,2425,0,3695,1324,1115,0,1013,1124,1302,0,1205,1127,763,0,2820,1242,872,0,1848,2696,3483,0,
  1883,1029,2459,0,1175,3270,3767,0,1519,1753,3542,0,3062,455,3207,0,3001,400,3710,0,1810,2476,2241,0,2381,980,1738,0,2814,2466,3469,0,
  2474,3751,526,0,2246,3620,3536,0,2891,1413,2393,0,1615,1195,3563,0,3200,484,1474,0,2694,1828,2618,0,3247,3484,1269,0,1267,3062,3000,0,
  2282,871,2348,0,2477,544,3421,0,2750,2346,875,0,2825,2485,800,0,3360,3413,1601,0,663,1614,1961,0,3221,536,2605,0,3036,1133,365,0,
  454,2833,3556,0,1173,3556,528,0,546,3285,1109,0,2971,1469,956,0,3217,747,1056,0,3466,3795,1959,0,3245,1911,2037,0,1015,3791,3606,0,
  2846,470,410,0,732,473,1529,0,3360,965,731,0,3610,3550,2319,0,1993,2125,1414,0,3830,2267,512,0,2963,3493,1085,0,2061,952,845,0,
  2068,1401,3721,0,1131,535,2925,0,735,989,1676,0,1768,3845,1233,0,3286,2180,1055,0,1412,3245,2933,0,2338,962,1977,0,3494,806,756,0,
  2560,3696,1411,0,1893,3862,3322,0,3282,701,1838,0,1692,2925,2197,0,3776,3215,409,0,3219,3415,1385,0,3038,2776,2752,0,1459,3070,1168,0,
  3219,2610,1489,0,2135,3258,2926,0,843,1882,1061,0,3579,3264,480,0,3146,1541,2244,0,2126,2335,2988,0,3420,2681,402,0,1320,1382,2743,0,
  3864,2569,1349,0,2539,1975,588,0,912,3650,1202,0,2322,1737,1532,0,674,3766,1468,0,3626,1275,2332,0,1810,1903,3317,0,2821,2191,3538,0,
  3620,873,3684,0,2603,3476,1745,0,2571,1621,3712,0,2813,1042,653,0,3567,1807,686,0,2525,1181,1014,0,699,3842,2496,0,471,1468,1765,0,
  1676,2140,3031,0,1604,1204,660,0,2641,3176,1779,0,3869,3677,1265,0,1197,2891,1694,0,1459,3199,3431,0,2315,3846,3533,0,2526,1231,2604,0,
  802,3683,3051,0,3823,2697,2239,0,1260,3495,3649,0,1595,2696,2461,0,1089,1473,1524,0,1678,3393,1881,0,2405,1545,1559,0,806,534,2820,0,
  3061,3362,1925,0,2851,395,1414,0,2671,1553,3755,0,1528,3434,2894,0,3361,2628,394,0,1246,3126,3350,0,2925,1949,3653,0,2775,3182,3290,0,
  2323,1339,2671,0,1203,2383,2347,0,3628,1132,891,0,1629,454,2568,0,554,2534,1835,0,2632,604,1819,0,451,3771,2464,0,368,2927,2469,0,
  371,988,3248,0,2541,1200,3750,0,437,3037,1324,0,1374,2201,2237,0,663,1327,3825,0,1828,553,743,0,2273,978,2204,0,3064,2813,3653,0,
  1243,2845,3832,0,2860,1096,2853,0,3701,3536,3413,0,2645,2608,3503,0,379,653,1744,0,1848,3629,3290,0,1037,3832,2763,0,3473,2539,959,0,
  2395,529,1527,0,1637,3827,2065,0,2639,2325,1348,0,1665,3330,744,0,2129,1326,977,0,2067,1899,3677,0,3358,3334,1270,0,1663,3108,2903,0,
  1170,1465,819,0,3245,1769,3037,0,3753,1412,951,0,3074,2099,1265,0,3107,513,2963,0,3613,1904,1020,0,3209,764,2410,0,1556,3541,3790,0,
  3464,1980,2182,0,3031,3506,1376,0,2126,482,395,0,3029,3273,1157,0,813,3788,3762,0,2855,3775,2564,0,1095,2787,3320,0,1256,2093,1899,0,
  3431,2612,3360,0,1345,2097,2416,0,1618,544,1775,0,446,3725,3396,0,1734,1094,2902,0,1610,3344,1177,0,768,3843,2206,0,607,3565,1264,0,
  2931,1100,1837,0,2242,1129,3751,0,902,509,3350,0,611,2116,3409,0,1189,452,3065,0,1980,2464,1773,0,442,3782,2755,0,894,413,2337,0,
  1767,2043,3209,0,2931,3563,1463,0,557,3781,1390,0,2696,1690,3127,0,1266,2899,2916,0,1197,1606,1274,0,1550,3427,1474,0,545,3051,3637,0,
  2048,1970,3475,0,1528,1764,872,0,1125,529,3359,0,2274,1996,2489,0,2177,2761,1959,0,3684,1475,1169,0,2252,2067,1373,0,3111,2526,1888,0,
  1230,2988,3246,0,3551,3705,680,0,1042,2995,1184,0,552,1242,701,0,3350,3617,3861,0,1449,3259,591,0,670,2814,1537,0,2567,3831,2857,0,
  603,969,1983,0,1235,3114,590,0,1627,878,1991,0,3425,2116,2641,0,3112,3761,3396,0,1634,1032,1709,0,2190,2781,3408,0,2355,3409,2715,0,
  2755,2411,373,0,826,1249,371,0,733,3407,3754,0,1848,1374,1204,0,2706,3479,1704,0,901,2100,3713,0,3709,540,555,0,483,874,3288,0,
  2981,3650,546,0,2314,950,2177,0,388,3507,3052,0,2612,3859,2039,0,1883,522,1739,0,2752,3414,2636,0,2976,399,3725,0,1030,2333,3844,0,
  986,1734,2712,0,3431,953,1771,0,3465,1989,729,0,1161,3651,1878,0,768,3829,2644,0,2458,3556,3215,0,1338,2355,1133,0,1450,2995,3318,0,
  2039,547,1460,0,840,3772,1376,0,2211,1270,475,0,1548,2693,3626,0,2285,1683,1277,0,3133,1903,2558,0,379,3410,1746,0,2969,1737,1678,0,
  588,1035,1020,0,1042,482,1262,0,2827,2415,2613,0,2428,2906,2414,0,604,3692,1808,0,1889,408,2102,0,2741,3333,1594,0,409,1309,3506,0,
  1120,3752,624,0,2644,3332,1705,0,3611,888,2914,0,962,1166,2888,0,2347,2259,873,0,589,1920,3185,0,3578,1704,2050,0,3002,3782,1470,0,
  2630,2543,2139,0,609,1843,3436,0,383,1169,2742,0,3643,771,1475,0,3699,957,3768,0,3482,2860,818,0,3607,2988,1234,0,1676,412,2605,0,
  3630,3203,1915,0,3417,2835,3546,0,680,1204,3796,0,1264,3506,1561,0,1843,3715,1122,0,1267,2644,3639,0,679,1185,1336,0,1195,3853,1125,0,
  1532,1918,3616,0,3252,2121,3828,0,3391,374,2692,0,1381,3694,2463,0,390,1480,2836,0,2772,1817,3427,0,1922,476,1762,0,3861,1333,3791,0,
  1270,3052,3503,0,2963,1119,3831,0,3553,2976,3548,0,1557,672,1628,0,2813,1330,1669,0,1016,3137,1013,0,2570,1756,3504,0,2861,2993,1040,0,
  1159,1830,2388,0,1272,3117,483,0,1840,1388,2277,0,3605,597,3130,0,1339,1520,555,0,1734,1324,3072,0,1266,3418,393,0,3688,2767,3471,0,
  3714,3470,902,0,2474,1977,1106,0,616,1039,2265,0,2028,3192,661,0,1628,677,2124,0,2979,772,1396,0,818,3210,480,0,2816,2338,3394,0,
  1236,3494,3829,0,369,532,1445,0,1769,733,1703,0,449,2703,1317,0,3646,1173,2924,0,3136,485,2560,0,3716,468,3144,0,3409,2642,2475,0,
  2860,413,2847,0,3831,2329,2240,0,1687,2645,3851,0,1555,1021,2927,0,2096,3117,3753,0,3678,2632,3677,0,3492,2141,3782,0,1483,2615,481,0,
  2209,2774,3642,0,1314,3196,3782,0,2269,2828,3652,0,514,1977,3538,0,475,2209,3792,0,3713,3052,806,0,2933,2544,3002,0,2488,3195,2633,0,
  1165,2847,3326,0,1739,2318,2674,0,1481,3569,1267,0,808,1518,3031,0,836,3391,3141,0,1476,2284,985,0,444,2758,3749,0,542,960,1330,0,
  2887,1962,3105,0,400,3421,1125,0,2998,2622,3407,0,753,2413,3420,0,3475,460,442,0,2476,3076,390,0,733,3643,514,0,2468,3246,2324,0,
  2921,3218,3786,0,1232,412,872,0,591,3045,2040,0,3502,1853,2559,0,554,1949,1554,0,1708,1741,1058,0,1529,1699,2466,0,2760,470,3861,0,
  2705,3461,2283,0,3763,2333,551,0,658,3200,2537,0,2454,1920,3750,0,2861,3853,1905,0,469,1988,3564,0,2424,407,2572,0,3260,1950,2255,0,
  2055,3636,2633,0,3263,2479,2569,0,1120,2768,1249,0,546,3756,3208,0,3712,2406,1918,0,2927,1100,482,0,1892,3139,2391,0,2129,385,3290,0,
  1016,467,661,0,691,1159,2189,0,2124,1025,1338,0,3357,2045,3639,0,835,3847,1748,0,1673,2716,2755,0,3861,1397,951,0,2960,591,3030,0,
  368,2282,1016,0,2694,2712,474,0,741,395,2638,0,2813,3575,368,0,2120,3712,1249,0,1909,3346,2855,0,3392,551,1664,0,3836,895,2400,0,
  2479,395,3634,0,913,3245,1906,0,2467,531,1474,0,1250,2392,3752,0,3851,3061,1544,0,1690,2856,3712,0,1379,838,2819,0,3361,1922,3434,0,
  2238,620,1378,0,805,2283,3683,0,3487,1541,2626,0,2410,1088,2265,0,3469,3198,2423,0,1670,819,1521,0,586,2830,461,0,3686,2622,2101,0,
  1273,3425,2211,0,1996,3787,1986,0,2050,1629,2768,0,1314,688,448,0,2239,470,1881,0,2335,3844,3502,0,2322,3558,3533,0,2966,1101,1305,0,
  1129,1101,2784,0,509,2780,1821,0,1635,3845,1901,0,912,2172,2932,0,797,3200,1597,0,2127,3763,2414,0,2774,679,476,0,765,2704,3780,0,
  910,807,1130,0,379,2272,3043,0,3221,1908,2907,0,3609,2423,1604,0,2832,1667,2886,0,2054,389,1266,0,2062,471,3198,0,1997,1821,3149,0,
  2531,389,479,0,1485,802,2056,0,1877,3696,3174,0,1014,2765,2962,0,1400,3690,608,0,1034,656,3471,0,627,1333,3774,0,884,1465,1963,0,
  3572,409,2342,0,949,2136,586,0,2782,1265,2917,0,3000,2238,2129,0,989,522,773,0,1991,2478,454,0,615,2212,1399,0,1340,2381,2205,0,
  1197,1665,3067,0,2561,1268,687,0,1734,3642,2171,0,2026,598,1014,0,1520,1604,1019,0,893,1271,2835,0,3607,1107,3720,0,2213,3635,767,0,
  2995,2319,3356,0,1167,2474,2985,0,1337,1491,485,0,2765,688,2200,0,3281,1841,2783,0,912,2907,3678,0,1844,3354,1923,0,1964,1120,1744,0,
  1834,3401,1267,0,2714,463,2674,0,883,2981,3493,0,839,607,3063,0,2418,746,2208,0,1376,2053,437,0,2783,3566,2342,0,378,479,2328,0,
  1166,2998,3466,0,1122,1040,474,0,1407,1950,3285,0,591,3462,1679,0,3624,1527,2907,0,2562,405,3140,0,584,2181,3124,0,768,2491,3638,0,
  1693,2963,2206,0,1306,1195,3752,0,833,890,1118,0,3281,1346,3504,0,3678,386,3571,0,1750,834,443,0,1015,812,3259,0,3408,2825,961,0,
  1406,2534,3286,0,1701,1612,657,0,2021,2675,1960,0,549,2915,1271,0,3273,662,2550,0,3790,3199,1850,0,2354,3605,2706,0,2041,3489,1601,0,
  1264,610,1179,0,3538,1962,369,0,3568,1828,458,0,2272,2620,1987,0,3757,1540,1092,0,1058,3491,399,0,476,1697,2910,0,3322,2136,1523,0]

/-- Array read `triplets[i]`; an element the initializer does not reach is zero-initialised. -/
def tripletsAt (i : Nat) : Nat := triplets.getD i 0

/-- First field of record `i`: `triplets[4*i]`. -/
def anchor (i : Nat) : Nat := tripletsAt (4 * i)

/-- Second field of record `i`: `triplets[4*i+1]`. -/
def sample1 (i : Nat) : Nat := tripletsAt (4 * i + 1)

/-- Third field of record `i`: `triplets[4*i+2]`. -/
def sample2 (i : Nat) : Nat := tripletsAt (4 * i + 2)

/-- Fourth field of record `i`: `triplets[4*i+3]`. -/
def reserved (i : Nat) : Nat := tripletsAt (4 * i + 3)

/-- Walks the flat table four values at a time and tests every record with `p`;
fails on a record that is cut short. -/
def checkRecords (p : Nat → Nat → Nat → Nat → Bool) : List Nat → Bool
  | a :: b :: c :: d :: rest => p a b c d && checkRecords p rest
  | [] => true
  | _ => false

/-- Cell `o` of a row-major buffer of row stride 72 has row and column in `5 .. 53`, and the
8 x 8 window whose top-left cell is `o` stays inside the 64 x 64 patch and inside the buffer of
64 rows of stride 72. -/
def windowInside (o : Nat) : Prop :=
  (5 ≤ o / 72 ∧ o / 72 ≤ 53) ∧ (5 ≤ o % 72 ∧ o % 72 ≤ 53) ∧ (365 ≤ o ∧ o ≤ 3869) ∧
  (o / 72 + 7 ≤ 63 ∧ o % 72 + 7 ≤ 63) ∧
  ∀ dr dc, dr < 8 → dc < 8 →
    o / 72 + dr ≤ 63 ∧ o % 72 + dc ≤ 63 ∧ (o / 72 + dr) * 72 + (o % 72 + dc) < 64 * 72

/-! ## Keypoints -/

/-- Modelled from the spec: the record `koral::Keypoint` of `Keypoint.h`, which is not among
the sources: `{x: integer, y: integer, level: integer, angle: float radians, score: numeric}`.
The driver reads the level as `kp.scale`, a pyramid level index. The `float` field `angle`
holds the finite value it denotes, a rational. -/
structure Keypoint where
  x : Int
  y : Int
  scale : Nat
  angle : ℚ
  score : Int
deriving DecidableEq

/-! ## The descriptor kernel `CLATCH` -/

/-- Modelled from the spec: sum of squared differences of two sampled windows, "elementwise
squared intensity difference summed over a window" (the kernel body `CLATCH.cu` is not among
the sources). -/
def ssd (u v : List Int) : Int :=
  (List.zipWith (fun p q => (p - q) * (p - q)) u v).sum

/-- Modelled from the spec: the comparison rule of the descriptor kernel for record `i` of the
table `d_triplets` at keypoint `kp`: `d1 = ssd(window(a), window(s1))`,
`d2 = ssd(window(a), window(s2))`, bit `i = 1` if `d1 < d2`, else `0`. The rotation of the
offsets and the interpolated sampling of a window are the argument `sampleWindow`. -/
def descriptorBit (sampleWindow : Keypoint → Nat → List Int) (d_triplets : List Nat)
    (kp : Keypoint) (i : Nat) : Bool :=
  let a := d_triplets.getD (4 * i) 0
  let s1 := d_triplets.getD (4 * i + 1) 0
  let s2 := d_triplets.getD (4 * i + 2) 0
  let d1 := ssd (sampleWindow kp a) (sampleWindow kp s1)
  let d2 := ssd (sampleWindow kp a) (sampleWindow kp s2)
  if d1 < d2 then true else false

/-- Modelled from the spec: machine word `w` of a packed descriptor, "bit `i` of the logical
descriptor located at word `i div 64`, bit position `i mod 64`": the word collects logical
bits `64*w .. 64*w+63`, bit `64*w+j` at position `j`. -/
def descriptorWord (bit : Nat → Bool) (w : Nat) : Nat :=
  (List.range 64).foldl (fun acc j => acc ||| ((bit (64 * w + j)).toNat <<< j)) 0

/-- Modelled from the spec: the descriptor of one keypoint, `B/64` consecutive machine words. -/
def describe (sampleWindow : Keypoint → Nat → List Int) (d_triplets : List Nat)
    (kp : Keypoint) : List Nat :=
  (List.range (descriptorBitCount / 64)).map
    (descriptorWord (descriptorBit sampleWindow d_triplets kp))

/-- Modelled from the spec: the kernel behind the declaration
`void CLATCH(d_all_tex, d_triplets, d_kps, num_kps, d_desc)` of `CLATCH.h`, whose body is not
among the sources. The result is the content of `d_desc`: the descriptors of the keypoints of
`d_kps`, index-aligned and contiguous. -/
def CLATCH (sampleWindow : Keypoint → Nat → List Int) (d_triplets : List Nat)
    (d_kps : List Keypoint) : List Nat :=
  (d_kps.map (describe sampleWindow d_triplets)).flatten

/-! ## The test driver (`main.cpp`) -/

/-- An image `cv::Mat`: the pixel buffer behind `data` (`none` is the null pointer), row-major,
and its dimensions. -/
structure Mat where
  data : Option (List Nat)
  cols : Nat
  rows : Nat
deriving DecidableEq

/-- A rectangle `cv::Rect(x, y, width, height)`. -/
structure Rect where
  x : Nat
  y : Nat
  width : Nat
  height : Nat
deriving DecidableEq

/-- A display keypoint `cv::KeyPoint(x, y, size, angle, response)`, five `float` fields:
`some q` is the finite value `q`, `none` is an infinity or a NaN. -/
structure CvKeyPoint where
  x : Option ℚ
  y : Option ℚ
  size : Option ℚ
  angle : Option ℚ
  response : Option ℚ
deriving DecidableEq

/-- The sub-image `m(r).clone()`. OpenCV rejects a rectangle that leaves the image (the
assertion of the `Mat` region constructor throws); that is `none`. -/
def Mat.roi (m : Mat) (r : Rect) : Option Mat :=
  if r.x + r.width ≤ m.cols ∧ r.y + r.height ≤ m.rows then
    some { data := m.data.map (fun px =>
             ((List.range r.height).map
               (fun i => (px.drop ((r.y + i) * m.cols + r.x)).take r.width)).flatten),
           cols := r.width, rows := r.height }
  else none

/-- What `main` does to the outside, call by call. -/
inductive Event where
  | imread (name : String)
  | cerr (msg : String)
  | cout (label : String) (count : Nat)
  | koralCtor (scale_factor : ℚ) (scale_levels : Nat)
  | koralGo (cols rows thresh : Nat)
  | drawKeypoints (image : Mat) (kps : List CvKeyPoint)
  | namedWindow (name : String)
  | imshow (name : String)
  | waitKey
  | detectorCtor (scaleFactor : ℚ) (scaleLevels width height maxFeatureCount fastThreshold : Nat)
  | matcherCtor (matchThreshold maxFeatureCount : Nat)
  | extractFeatures (cols rows : Nat)
  | setTrainingImage
  | setQueryImage
  | matchFeatures
  | drawMatches
deriving DecidableEq

/-- How a run of `main` ends: a return value, or an exception nobody catches. -/
inductive Outcome where
  | exit (code : Int)
  | uncaught (what : String)
deriving DecidableEq

/-- The collaborators of `main`: the image reader, and what the two detectors report. -/
structure Env where
  /-- Result of `cv::imread(name, IMREAD_GRAYSCALE)`. -/
  imread : String → Mat
  /-- Content of `koral.kps` after `KORAL(scale_factor, scale_levels).go(image, thresh)`. -/
  koralKps : ℚ → Nat → Mat → Nat → List Keypoint
  /-- Content of `detector.converted_kps` after `detector.extractFeatures(img)`. -/
  detectorKps : Mat → List CvKeyPoint

/-- `EXIT_FAILURE` of `<cstdlib>`. -/
def EXIT_FAILURE : Int := 1

/-- `EXIT_SUCCESS` of `<cstdlib>`, the value of falling off the end of `main`. -/
def EXIT_SUCCESS : Int := 0

/-- `constexpr uint8_t KFAST_thresh = 60;` -/
def KFAST_thresh : Nat := 60

/-- `constexpr char name[] = "test1.jpg";` -/
def name : String := "test1.jpg"

/-- `constexpr char name2[] = "test2.jpg";` -/
def name2 : String := "test2.jpg"

/-- `constexpr float scale_factor = 1.2f;` -/
def scale_factor : ℚ := 1.2

/-- `constexpr uint8_t scale_levels = 8;` -/
def scale_levels : Nat := 8

/-- `const unsigned int maxFeatureCount = 50000;` -/
def maxFeatureCount : Nat := 50000

/-- `const uint8_t fastThreshold = 40;` -/
def fastThreshold : Nat := 40

/-- `const uint8_t matchThreshold = 25;` -/
def matchThreshold : Nat := 25

/-- `const unsigned int scaleLevels = 4;` -/
def scaleLevels : Nat := 4

/-- `const float scaleFactor = 1.2;` -/
def scaleFactor : ℚ := 1.2

/-- `cv::Rect crop(1470, 1350, 900, 1100);` -/
def crop : Rect := { x := 1470, y := 1350, width := 900, height := 1100 }

/-- The message of both image checks. -/
def openError : String := "ERROR: failed to open image. Aborting."

/-! ### Binary floating point

A `float` or `double` value is `some q`, the finite value `q`, or `none`, an infinity or a
NaN; the two zeros are one value. Every operation rounds the exact result to nearest, ties to
even, as IEEE 754 arithmetic does by default. -/

/-- Halving `n` until it is below 2, at most `fuel` times: the number of halvings. -/
def log2Fuel : Nat → Nat → Nat
  | 0, _ => 0
  | fuel + 1, n => if 2 ≤ n then log2Fuel fuel (n / 2) + 1 else 0

/-- The position of the leading bit of `n`: `2 ^ ilog2 n ≤ n < 2 ^ (ilog2 n + 1)` for `n ≥ 1`. -/
def ilog2 (n : Nat) : Nat := log2Fuel n n

/-- The integer nearest to `m`, the even one of the two when `m` lies half way. -/
def roundHalfEven (m : ℚ) : Int :=
  let r : Int := ⌊m⌋
  let frac : ℚ := m - (r : ℚ)
  if frac < 1 / 2 then r
  else if 1 / 2 < frac then r + 1
  else if r % 2 = 0 then r else r + 1

/-- The binary exponent `e` of `q ≠ 0`, `2 ^ e ≤ |q| < 2 ^ (e + 1)`: the difference of the
leading bit positions of numerator and denominator, or one less. -/
def binaryExponent (q : ℚ) : Int :=
  let e0 : Int := (ilog2 q.num.natAbs : Int) - (ilog2 q.den : Int)
  if |q| < (2 : ℚ) ^ e0 then e0 - 1 else e0

/-- The spacing of the values of the binary format with `p` significand bits and least
exponent `emin` around `q`: `2 ^ (e - p + 1)`, with `e` the exponent of `q`, held at `emin` in
the subnormal range. -/
def quantum (p : Nat) (emin : Int) (q : ℚ) : ℚ :=
  (2 : ℚ) ^ (max (binaryExponent q) emin - (p : Int) + 1)

/-- The multiple of the spacing nearest to `|q|`, the even multiple of two equally near. -/
def roundMagnitude (p : Nat) (emin : Int) (q : ℚ) : ℚ :=
  (roundHalfEven (|q| / quantum p emin q) : ℚ) * quantum p emin q

/-- Rounding of the exact value `q` to the binary format with `p` significand bits and exponent
range `emin .. emax`, to nearest, ties to even: the rounded magnitude with the sign of `q`; a
magnitude of `2 ^ (emax + 1)` or more overflows to an infinity. -/
def roundBinary (p : Nat) (emin emax : Int) (q : ℚ) : Option ℚ :=
  if q = 0 then some 0
  else if roundMagnitude p emin q < (2 : ℚ) ^ (emax + 1) then
    some (if q < 0 then -roundMagnitude p emin q else roundMagnitude p emin q)
  else none

/-- The `float` (binary32) nearest to `q`: a literal `q` with suffix `f`, or
`static_cast<float>` of the finite value `q`. -/
def toFloat (q : ℚ) : Option ℚ := roundBinary 24 (-126) 127 q

/-- The `double` (binary64) nearest to `q`. -/
def toDouble (q : ℚ) : Option ℚ := roundBinary 53 (-1022) 1023 q

/-- The `float` product `a * b`; a product with an infinity or a NaN is an infinity or a NaN. -/
def fmul (a b : Option ℚ) : Option ℚ :=
  match a, b with
  | some x, some y => toFloat (x * y)
  | _, _ => none

/-- The `float` quotient `x / y` of two finite values; by zero it is an infinity or a NaN. -/
def fdiv (x y : ℚ) : Option ℚ :=
  if y = 0 then none else toFloat (x / y)

/-- The call `std::pow(x, n)` with a finite `float` `x` and an integer `n`: both arguments are
converted to `double`, exactly, and the result is taken to be the `double` nearest to the
power (`levelScale_pow_robust` shows that the last bits do not matter for the levels in use). -/
def std_pow (x : ℚ) (n : Nat) : Option ℚ := toDouble (x ^ n)

/-- The first conversion loop of `main`: for each `kp` of `koral.kps`, in order,
`scale = static_cast<float>(std::pow(scale_factor, kp.scale))` and
`converted_kps.emplace_back(scale*static_cast<float>(kp.x), scale*static_cast<float>(kp.y),
7.0f*scale, 180.0f / 3.1415926535f * kp.angle, static_cast<float>(kp.score))`. -/
def converted_kps (kps : List Keypoint) : List CvKeyPoint :=
  kps.foldl (fun acc kp =>
    let scale : Option ℚ :=
      ((toFloat scale_factor).bind (fun f => std_pow f kp.scale)).bind toFloat
    acc ++ [{ x := fmul scale (toFloat (kp.x : ℚ)), y := fmul scale (toFloat (kp.y : ℚ)),
              size := fmul (toFloat 7) scale,
              angle := fmul ((toFloat 180).bind (fun a =>
                  (toFloat 3.1415926535).bind (fun b => fdiv a b))) (some kp.angle),
              response := toFloat (kp.score : ℚ) }]) []

/-- The second conversion loop of `main`, over `koral2.kps`. -/
def converted_kps2 (kps : List Keypoint) : List CvKeyPoint :=
  kps.foldl (fun acc kp =>
    let scale : Option ℚ :=
      ((toFloat scale_factor).bind (fun f => std_pow f kp.scale)).bind toFloat
    acc ++ [{ x := fmul scale (toFloat (kp.x : ℚ)), y := fmul scale (toFloat (kp.y : ℚ)),
              size := fmul (toFloat 7) scale,
              angle := fmul ((toFloat 180).bind (fun a =>
                  (toFloat 3.1415926535).bind (fun b => fdiv a b))) (some kp.angle),
              response := toFloat (kp.score : ℚ) }]) []

/-- The `float` `scale` the loops compute for pyramid level `level`. -/
def levelScale (level : Nat) : Option ℚ :=
  ((toFloat scale_factor).bind (fun f => std_pow f level)).bind toFloat

/-- The angle the driver gives the display keypoint of `kp`. -/
def convertedAngle (kp : Keypoint) : Option ℚ :=
  ((converted_kps [kp]).map CvKeyPoint.angle).headD none

/-- The matching half of `main`, from the two crops on. -/
def mainMatch (env : Env) (img1 img2 : Mat) : List Event :=
  [ Event.extractFeatures img1.cols img1.rows,
    Event.setTrainingImage,
    Event.drawKeypoints img1 (env.detectorKps img1),
    Event.extractFeatures img2.cols img2.rows,
    Event.setQueryImage,
    Event.drawKeypoints img2 (env.detectorKps img2),
    Event.matchFeatures,
    Event.drawMatches,
    Event.namedWindow "Matches",
    Event.imshow "Matches",
    Event.waitKey ]

/-- The driver `main`: how it ends and the calls it made, in order. -/
def main (env : Env) : Outcome × List Event :=
  let image := env.imread name
  let t0 := [Event.imread name]
  if image.data.isNone then
    (Outcome.exit EXIT_FAILURE, t0 ++ [Event.cerr openError])
  else
    let image2 := env.imread name2
    let t1 := t0 ++ [Event.imread name2]
    if image2.data.isNone then
      (Outcome.exit EXIT_FAILURE, t1 ++ [Event.cerr openError])
    else
      let kps := env.koralKps scale_factor scale_levels image KFAST_thresh
      let kps2 := env.koralKps scale_factor scale_levels image2 KFAST_thresh
      let t2 := t1 ++
        [ Event.koralCtor scale_factor scale_levels,
          Event.koralGo image.cols image.rows KFAST_thresh,
          Event.koralCtor scale_factor scale_levels,
          Event.koralGo image2.cols image2.rows KFAST_thresh,
          Event.cout "KORAL found " kps.length,
          Event.cout "KORAL2 found " kps2.length,
          Event.drawKeypoints image (converted_kps kps),
          Event.drawKeypoints image2 (converted_kps2 kps2),
          Event.namedWindow "KORAL",
          Event.namedWindow "KORAL2",
          Event.imshow "KORAL",
          Event.imshow "KORAL2",
          Event.waitKey,
          Event.detectorCtor scaleFactor scaleLevels 900 1100 maxFeatureCount fastThreshold,
          Event.matcherCtor matchThreshold maxFeatureCount ]
      match image.roi crop, image2.roi crop with
      | some img1, some img2 => (Outcome.exit EXIT_SUCCESS, t2 ++ mainMatch env img1 img2)
      | _, _ => (Outcome.uncaught "cv::Exception", t2)

/-- The calls that construct or run a pipeline. -/
def Event.isPipelineCall : Event → Bool
  | Event.koralCtor _ _ => true
  | Event.koralGo _ _ _ => true
  | Event.detectorCtor _ _ _ _ _ _ => true
  | Event.matcherCtor _ _ => true
  | Event.extractFeatures _ _ => true
  | Event.setTrainingImage => true
  | Event.setQueryImage => true
  | Event.matchFeatures => true
  | _ => false

/-- The `(scale_factor, level_count)` of every pipeline a trace constructs, in order. -/
def constructedPipelines : List Event → List (ℚ × Nat)
  | [] => []
  | Event.koralCtor f l :: t => (f, l) :: constructedPipelines t
  | Event.detectorCtor f l _ _ _ _ :: t => (f, l) :: constructedPipelines t
  | _ :: t => constructedPipelines t

/-- Entry count of the texture parameter of `CLATCH`, `cudaTextureObject_t d_all_tex[8]`: one
slot per pyramid level. -/
def d_all_tex_size : Nat := 8

/-- The `(cols, rows)` of every image a trace hands to `extractFeatures`, in order. -/
def extractedDims : List Event → List (Nat × Nat)
  | [] => []
  | Event.extractFeatures c r :: t => (c, r) :: extractedDims t
  | _ :: t => extractedDims t

/-- The `(width, height)` every `FeatureDetector` of a trace is constructed with, in order. -/
def detectorDims : List Event → List (Nat × Nat)
  | [] => []
  | Event.detectorCtor _ _ w h _ _ :: t => (w, h) :: detectorDims t
  | _ :: t => detectorDims t

/-! ## Theorems: the pattern table -/

/-- A table that passes `checkRecords p` satisfies `p` at each record, read by index. -/
theorem checkRecords_getD (p : Nat → Nat → Nat → Nat → Bool) :
    ∀ (l : List Nat), checkRecords p l = true → ∀ i, 4 * i + 3 < l.length →
      p (l.getD (4 * i) 0) (l.getD (4 * i + 1) 0) (l.getD (4 * i + 2) 0)
        (l.getD (4 * i + 3) 0) = true
  | [], _, i, hi => by
    simp only [List.length_cons, List.length_nil] at hi; omega
  | [_], _, i, hi => by
    simp only [List.length_cons, List.length_nil] at hi; omega
  | [_, _], _, i, hi => by
    simp only [List.length_cons, List.length_nil] at hi; omega
  | [_, _, _], _, i, hi => by
    simp only [List.length_cons, List.length_nil] at hi; omega
  | a :: b :: c :: d :: rest, h, i, hi => by
    rw [checkRecords, Bool.and_eq_true] at h
    cases i with
    | zero => simpa using h.1
    | succ n =>
      have hn : 4 * n + 3 < rest.length := by simp at hi; omega
      have ih := checkRecords_getD p rest h.2 n hn
      have g : ∀ k, (a :: b :: c :: d :: rest).getD (k + 4) 0 = rest.getD k 0 := fun _ => rfl
      have e0 : 4 * (n + 1) = 4 * n + 4 := by ring
      have e1 : 4 * n + 4 + 1 = (4 * n + 1) + 4 := by ring
      have e2 : 4 * n + 4 + 2 = (4 * n + 2) + 4 := by ring
      have e3 : 4 * n + 4 + 3 = (4 * n + 3) + 4 := by ring
      rw [e0, e1, e2, e3, g, g, g, g]
      exact ih

/-- The initializer of `triplets` has 2048 values. -/
theorem triplets_length : triplets.length = 2048 := by decide!

/-- Every record has a zero fourth field and three non-zero fields before it. -/
theorem triplets_reserved_check :
    checkRecords (fun a b c d => decide (d = 0) && decide (a ≠ 0) && decide (b ≠ 0)
      && decide (c ≠ 0)) triplets = true := by decide!

/-- Every record keeps its first three fields below 4096. -/
theorem triplets_patch_check :
    checkRecords (fun a b c _ => decide (a < 4096) && decide (b < 4096)
      && decide (c < 4096)) triplets = true := by decide!

/-- Every record keeps row and column (stride 72) of its first three fields in `5 .. 53`. -/
theorem triplets_margin_check :
    checkRecords (fun a b c _ =>
      (decide (5 ≤ a / 72) && decide (a / 72 ≤ 53) && decide (5 ≤ a % 72) && decide (a % 72 ≤ 53))
      && (decide (5 ≤ b / 72) && decide (b / 72 ≤ 53) && decide (5 ≤ b % 72) && decide (b % 72 ≤ 53))
      && (decide (5 ≤ c / 72) && decide (c / 72 ≤ 53) && decide (5 ≤ c % 72) && decide (c % 72 ≤ 53)))
      triplets = true := by decide!

/-- Record `i` of the 512 lies inside the initializer. -/
theorem record_in_table (i : Nat) (hi : i < descriptorBitCount) : 4 * i + 3 < triplets.length := by
  rw [triplets_length]
  unfold descriptorBitCount at hi
  omega

/-- C1: the pattern table `triplets` is exactly 512 records of four integers: the initializer
supplies 2048 = 4 * 512 explicit values, as many as the array declares, so no element is
zero-initialised by default and record `i` occupies entries `4i .. 4i+3` for every `i < 512`;
conversely every entry belongs to one of the 512 records. -/
theorem C1_triplets_shape :
    triplets.length = 2048 ∧ triplets.length = tripletsDeclaredSize ∧
    tripletsDeclaredSize = 4 * descriptorBitCount ∧ descriptorBitCount = 512 ∧
    (∀ j, j < tripletsDeclaredSize → triplets[j]? = some (tripletsAt j)) ∧
    (∀ i, i < descriptorBitCount →
      4 * i < triplets.length ∧ 4 * i + 1 < triplets.length ∧
      4 * i + 2 < triplets.length ∧ 4 * i + 3 < triplets.length) ∧
    (∀ j, j < triplets.length → j / 4 < descriptorBitCount ∧ j = 4 * (j / 4) + j % 4) := by
  refine ⟨triplets_length, triplets_length, rfl, rfl, ?_, ?_, ?_⟩
  · intro j hj
    have hj2 : j < triplets.length := by rw [triplets_length]; exact hj
    unfold tripletsAt
    rw [List.getD_eq_getElem?_getD, List.getElem?_eq_getElem hj2]
    rfl
  · intro i hi
    have h := record_in_table i hi
    omega
  · intro j hj
    rw [triplets_length] at hj
    unfold descriptorBitCount
    omega

/-- C2: in every record `i < 512` of the pattern table the fourth (reserved) field
`triplets[4i+3]` is 0 and none of the three meaningful fields `triplets[4i]`,
`triplets[4i+1]`, `triplets[4i+2]` is 0. -/
theorem C2_reserved_is_only_zero (i : Nat) (hi : i < descriptorBitCount) :
    reserved i = 0 ∧ anchor i ≠ 0 ∧ sample1 i ≠ 0 ∧ sample2 i ≠ 0 := by
  have h := checkRecords_getD _ triplets triplets_reserved_check i (record_in_table i hi)
  simp only [Bool.and_eq_true, decide_eq_true_eq] at h
  exact ⟨h.1.1.1, h.1.1.2, h.1.2, h.2⟩

/-- Witness of C2 at record 7. -/
theorem C2_reserved_is_only_zero_witness :
    reserved 7 = 0 ∧ anchor 7 ≠ 0 ∧ sample1 7 ≠ 0 ∧ sample2 7 ≠ 0 :=
  C2_reserved_is_only_zero 7 (by decide)

/-- C3: every anchor, sample1 and sample2 offset of every record `i < 512` lies inside one
64 x 64 patch: `o < 4096 = 64 * 64 = 2 ^ 12` (and `0 ≤ o` as a natural number). -/
theorem C3_offsets_in_patch (i : Nat) (hi : i < descriptorBitCount) :
    (0 ≤ anchor i ∧ anchor i < 4096) ∧ (0 ≤ sample1 i ∧ sample1 i < 4096) ∧
    (0 ≤ sample2 i ∧ sample2 i < 4096) ∧ 4096 = 64 * 64 ∧ 4096 = 2 ^ 12 := by
  have h := checkRecords_getD _ triplets triplets_patch_check i (record_in_table i hi)
  simp only [Bool.and_eq_true, decide_eq_true_eq] at h
  exact ⟨⟨Nat.zero_le _, h.1.1⟩, ⟨Nat.zero_le _, h.1.2⟩, ⟨Nat.zero_le _, h.2⟩, by norm_num,
    by norm_num⟩

/-- Witness of C3 at record 0: the offsets 2184, 3253 and 596. -/
theorem C3_offsets_in_patch_witness :
    (0 ≤ anchor 0 ∧ anchor 0 < 4096) ∧ (0 ≤ sample1 0 ∧ sample1 0 < 4096) ∧
    (0 ≤ sample2 0 ∧ sample2 0 < 4096) ∧ 4096 = 64 * 64 ∧ 4096 = 2 ^ 12 :=
  C3_offsets_in_patch 0 (by decide)

/-- Row and column bounds of an offset give the window bounds of `windowInside`. -/
theorem windowInside_of_margin (o : Nat) (h1 : 5 ≤ o / 72) (h2 : o / 72 ≤ 53)
    (h3 : 5 ≤ o % 72) (h4 : o % 72 ≤ 53) : windowInside o := by
  have ho : o = 72 * (o / 72) + o % 72 := (Nat.div_add_mod o 72).symm
  refine ⟨⟨h1, h2⟩, ⟨h3, h4⟩, ⟨by omega, by omega⟩, ⟨by omega, by omega⟩, ?_⟩
  intro dr dc hdr hdc
  refine ⟨by omega, by omega, ?_⟩
  have hr : o / 72 + dr ≤ 60 := by omega
  have hc : o % 72 + dc ≤ 60 := by omega
  calc (o / 72 + dr) * 72 + (o % 72 + dc) ≤ 60 * 72 + 60 :=
        Nat.add_le_add (Nat.mul_le_mul_right 72 hr) hc
    _ < 64 * 72 := by norm_num

/-- C10: reading each anchor/sample offset `o` of a record `i < 512` as a cell of a row-major
buffer with row stride 72, `5 ≤ o / 72 ≤ 53` and `5 ≤ o % 72 ≤ 53`; hence `365 ≤ o ≤ 3869`, and
the 8 x 8 window with top-left cell `o` stays inside the 64 x 64 patch (`row + 7 ≤ 63`,
`col + 7 ≤ 63`) and inside the buffer of 64 rows x stride 72 = 4608 cells. -/
theorem C10_window_inside_buffer (i : Nat) (hi : i < descriptorBitCount) :
    windowInside (anchor i) ∧ windowInside (sample1 i) ∧ windowInside (sample2 i) ∧
    64 * 72 = 4608 := by
  have h := checkRecords_getD _ triplets triplets_margin_check i (record_in_table i hi)
  simp only [Bool.and_eq_true, decide_eq_true_eq] at h
  obtain ⟨⟨⟨⟨⟨a1, a2⟩, a3⟩, a4⟩, ⟨⟨⟨b1, b2⟩, b3⟩, b4⟩⟩, ⟨⟨⟨c1, c2⟩, c3⟩, c4⟩⟩ := h
  exact ⟨windowInside_of_margin _ a1 a2 a3 a4, windowInside_of_margin _ b1 b2 b3 b4,
    windowInside_of_margin _ c1 c2 c3 c4, by norm_num⟩

/-- Witness of C10 at the last record, 511: the offsets 3322, 2136 and 1523. -/
theorem C10_window_inside_buffer_witness :
    windowInside (anchor 511) ∧ windowInside (sample1 511) ∧ windowInside (sample2 511) ∧
    64 * 72 = 4608 :=
  C10_window_inside_buffer 511 (by decide)

/-! ## Theorems: the descriptor kernel -/

/-- Bit `k` of a word built by or-ing `f j` in at position `j`, for the positions `j` of `l`. -/
theorem testBit_foldl_or (f : Nat → Bool) (l : List Nat) (init k : Nat) :
    (l.foldl (fun acc j => acc ||| ((f j).toNat <<< j)) init).testBit k
      = (init.testBit k || (decide (k ∈ l) && f k)) := by
  induction l generalizing init with
  | nil => simp
  | cons j t ih =>
    rw [List.foldl_cons, ih, Nat.testBit_or, Nat.testBit_shiftLeft, Nat.testBit_bool_to_nat]
    by_cases hkj : k = j
    · subst hkj
      cases f k <;> simp
    · have h1 : ¬ (k ≥ j ∧ k - j = 0) := by omega
      by_cases hge : k ≥ j
      · have h2 : ¬ (k - j = 0) := by omega
        simp [hkj, hge, h2]
      · simp [hkj, hge]

/-- Word `w` of a descriptor holds logical bit `64*w + j` at position `j`. -/
theorem descriptorWord_testBit (bit : Nat → Bool) (w j : Nat) (hj : j < 64) :
    (descriptorWord bit w).testBit j = bit (64 * w + j) := by
  unfold descriptorWord
  rw [testBit_foldl_or (fun j => bit (64 * w + j))]
  simp [List.mem_range, hj]

/-- A descriptor word fits in 64 bits. -/
theorem descriptorWord_lt (bit : Nat → Bool) (w : Nat) : descriptorWord bit w < 2 ^ 64 := by
  apply Nat.lt_pow_two_of_testBit
  intro i hi
  unfold descriptorWord
  rw [testBit_foldl_or (fun j => bit (64 * w + j))]
  have : ¬ i < 64 := by omega
  simp [List.mem_range, this]

/-- A descriptor is 8 words. -/
theorem describe_length (sampleWindow : Keypoint → Nat → List Int) (d_triplets : List Nat)
    (kp : Keypoint) : (describe sampleWindow d_triplets kp).length = 8 := by
  simp [describe, descriptorBitCount]

/-- Word `w` of a descriptor. -/
theorem describe_getD (sampleWindow : Keypoint → Nat → List Int) (d_triplets : List Nat)
    (kp : Keypoint) (w : Nat) (hw : w < 8) :
    (describe sampleWindow d_triplets kp).getD w 0
      = descriptorWord (descriptorBit sampleWindow d_triplets kp) w := by
  have h8 : descriptorBitCount / 64 = 8 := rfl
  simp [describe, h8, List.getElem?_range hw]

/-- Chunks of equal length `n`, laid end to end: entry `n*k + j` is entry `j` of chunk `k`. -/
theorem flatten_map_getD {α : Type} (f : α → List Nat) (n : Nat) (hf : ∀ x, (f x).length = n) :
    ∀ (l : List α) (k j : Nat) (hk : k < l.length), j < n →
      ((l.map f).flatten).getD (n * k + j) 0 = (f (l.get ⟨k, hk⟩)).getD j 0
  | [], k, j, hk, _ => by simp at hk
  | x :: t, 0, j, _, hj => by
    have hlt : j < (f x).length := by rw [hf]; exact hj
    simp [List.getElem?_append_left hlt]
  | x :: t, k + 1, j, hk, hj => by
    have hk2 : k < t.length := by simpa using hk
    have ih := flatten_map_getD f n hf t k j hk2 hj
    have hle : (f x).length ≤ n * (k + 1) + j := by rw [hf]; nlinarith
    have e : n * (k + 1) + j - (f x).length = n * k + j := by rw [hf]; ring_nf; omega
    simp only [List.map_cons, List.flatten_cons, List.getD_eq_getElem?_getD,
      List.getElem?_append_right hle, e, List.get_eq_getElem, List.getElem_cons_succ]
    simpa using ih

/-- Length of chunks of equal length `n` laid end to end. -/
theorem flatten_map_length {α : Type} (f : α → List Nat) (n : Nat) (hf : ∀ x, (f x).length = n) :
    ∀ (l : List α), ((l.map f).flatten).length = n * l.length
  | [] => by simp
  | x :: t => by
    have ih := flatten_map_length f n hf t
    simp only [List.map_cons, List.flatten_cons, List.length_append, List.length_cons, hf, ih]
    ring

/-- Bit `b` of word `w` of the descriptor of the `k`-th keypoint, as `CLATCH` leaves it in
`d_desc`, is the comparison bit of record `64*w + b`. -/
theorem CLATCH_testBit (sampleWindow : Keypoint → Nat → List Int) (d_triplets : List Nat)
    (d_kps : List Keypoint) (k : Nat) (kp : Keypoint) (hkp : d_kps[k]? = some kp)
    (w b : Nat) (hw : w < 8) (hb : b < 64) :
    ((CLATCH sampleWindow d_triplets d_kps).getD (8 * k + w) 0).testBit b
      = descriptorBit sampleWindow d_triplets kp (64 * w + b) := by
  obtain ⟨hk, hget⟩ := List.getElem?_eq_some.mp hkp
  unfold CLATCH
  rw [flatten_map_getD _ 8 (describe_length sampleWindow d_triplets) d_kps k w hk hw,
    describe_getD _ _ _ w hw, descriptorWord_testBit _ _ _ hb, List.get_eq_getElem, hget]

/-- C4: each descriptor `CLATCH` writes into `d_desc` is `B/64 = 8` consecutive 64-bit words
(the descriptor of keypoint `k` is words `8k .. 8k+7`), logical bit `i`, decided by table record
`i`, is stored in word `i div 64` at bit position `i mod 64`, and `i ↦ (i div 64, i mod 64)` is
a bijection from `[0, 512)` onto `[0, 8) x [0, 64)`: no two records share a position and every
position of the 8 words holds the bit of a record. -/
theorem C4_descriptor_wire_layout (sampleWindow : Keypoint → Nat → List Int)
    (d_kps : List Keypoint) (k : Nat) (kp : Keypoint) (hkp : d_kps[k]? = some kp)
    (i : Nat) (hi : i < descriptorBitCount) :
    descriptorBitCount / 64 = 8 ∧
    (CLATCH sampleWindow triplets d_kps).length = 8 * d_kps.length ∧
    (∀ w, w < 8 → (CLATCH sampleWindow triplets d_kps).getD (8 * k + w) 0 < 2 ^ 64) ∧
    ((CLATCH sampleWindow triplets d_kps).getD (8 * k + i / 64) 0).testBit (i % 64)
      = descriptorBit sampleWindow triplets kp i ∧
    (i / 64 < 8 ∧ i % 64 < 64) ∧
    (∀ i2, i2 < descriptorBitCount → i2 / 64 = i / 64 → i2 % 64 = i % 64 → i2 = i) ∧
    (∀ w b, w < 8 → b < 64 → ∃ i2, i2 < descriptorBitCount ∧ i2 / 64 = w ∧ i2 % 64 = b ∧
      ((CLATCH sampleWindow triplets d_kps).getD (8 * k + w) 0).testBit b
        = descriptorBit sampleWindow triplets kp i2) := by
  unfold descriptorBitCount at *
  have hw : i / 64 < 8 := by omega
  have hb : i % 64 < 64 := by omega
  have hi64 : 64 * (i / 64) + i % 64 = i := Nat.div_add_mod i 64
  obtain ⟨hk, hget⟩ := List.getElem?_eq_some.mp hkp
  refine ⟨rfl, ?_, ?_, ?_, ⟨hw, hb⟩, ?_, ?_⟩
  · exact flatten_map_length _ 8 (describe_length sampleWindow triplets) d_kps
  · intro w hw2
    unfold CLATCH
    rw [flatten_map_getD _ 8 (describe_length sampleWindow triplets) d_kps k w hk hw2,
      describe_getD _ _ _ w hw2]
    exact descriptorWord_lt _ _
  · rw [CLATCH_testBit sampleWindow triplets d_kps k kp hkp _ _ hw hb, hi64]
  · intro i2 _ h1 h2
    have := Nat.div_add_mod i2 64
    omega
  · intro w b hw2 hb2
    refine ⟨64 * w + b, by omega, by omega, by omega, ?_⟩
    exact CLATCH_testBit sampleWindow triplets d_kps k kp hkp w b hw2 hb2

/-- Witness of C4: one keypoint, windows of a single sample, record 130 (word 2, bit 2). -/
theorem C4_descriptor_wire_layout_witness :
    descriptorBitCount / 64 = 8 ∧
    (CLATCH (fun _ o => [(o : Int)]) triplets [⟨10, 20, 0, 0, 1⟩]).length = 8 * 1 ∧
    (∀ w, w < 8 →
      (CLATCH (fun _ o => [(o : Int)]) triplets [⟨10, 20, 0, 0, 1⟩]).getD (8 * 0 + w) 0 < 2 ^ 64) ∧
    ((CLATCH (fun _ o => [(o : Int)]) triplets [⟨10, 20, 0, 0, 1⟩]).getD
        (8 * 0 + 130 / 64) 0).testBit (130 % 64)
      = descriptorBit (fun _ o => [(o : Int)]) triplets ⟨10, 20, 0, 0, 1⟩ 130 ∧
    (130 / 64 < 8 ∧ 130 % 64 < 64) ∧
    (∀ i2, i2 < descriptorBitCount → i2 / 64 = 130 / 64 → i2 % 64 = 130 % 64 → i2 = 130) ∧
    (∀ w b, w < 8 → b < 64 → ∃ i2, i2 < descriptorBitCount ∧ i2 / 64 = w ∧ i2 % 64 = b ∧
      ((CLATCH (fun _ o => [(o : Int)]) triplets [⟨10, 20, 0, 0, 1⟩]).getD (8 * 0 + w) 0).testBit b
        = descriptorBit (fun _ o => [(o : Int)]) triplets ⟨10, 20, 0, 0, 1⟩ i2) :=
  C4_descriptor_wire_layout (fun _ o => [(o : Int)]) [⟨10, 20, 0, 0, 1⟩] 0 ⟨10, 20, 0, 0, 1⟩ rfl
    130 (by decide)

/-- C5: for every keypoint `kp` of `d_kps` and every record `i = (a, s1, s2)` of the pattern
table, descriptor bit `i` produced by `CLATCH` is 1 if and only if `d1 < d2` strictly, with
`d1 = ssd(window(a), window(s1))` and `d2 = ssd(window(a), window(s2))`; when `d1 = d2` the
bit is 0. -/
theorem C5_bit_is_strict_comparison (sampleWindow : Keypoint → Nat → List Int)
    (d_kps : List Keypoint) (k : Nat) (kp : Keypoint) (hkp : d_kps[k]? = some kp)
    (i : Nat) (hi : i < descriptorBitCount) :
    (((CLATCH sampleWindow triplets d_kps).getD (8 * k + i / 64) 0).testBit (i % 64) = true ↔
      ssd (sampleWindow kp (anchor i)) (sampleWindow kp (sample1 i))
        < ssd (sampleWindow kp (anchor i)) (sampleWindow kp (sample2 i))) ∧
    (ssd (sampleWindow kp (anchor i)) (sampleWindow kp (sample1 i))
        = ssd (sampleWindow kp (anchor i)) (sampleWindow kp (sample2 i)) →
      ((CLATCH sampleWindow triplets d_kps).getD (8 * k + i / 64) 0).testBit (i % 64) = false) := by
  unfold descriptorBitCount at hi
  have hw : i / 64 < 8 := by omega
  have hb : i % 64 < 64 := by omega
  have hi64 : 64 * (i / 64) + i % 64 = i := Nat.div_add_mod i 64
  rw [CLATCH_testBit sampleWindow triplets d_kps k kp hkp _ _ hw hb, hi64]
  unfold descriptorBit anchor sample1 sample2 tripletsAt
  constructor
  · simp
  · intro h
    simp only [h, lt_self_iff_false, if_false]

/-- Witness of C5: one keypoint, windows of a single sample, record 0 = (2184, 3253, 596). -/
theorem C5_bit_is_strict_comparison_witness :
    (((CLATCH (fun _ o => [(o : Int)]) triplets [⟨10, 20, 0, 0, 1⟩]).getD
        (8 * 0 + 0 / 64) 0).testBit (0 % 64) = true ↔
      ssd [(anchor 0 : Int)] [(sample1 0 : Int)] < ssd [(anchor 0 : Int)] [(sample2 0 : Int)]) ∧
    (ssd [(anchor 0 : Int)] [(sample1 0 : Int)] = ssd [(anchor 0 : Int)] [(sample2 0 : Int)] →
      ((CLATCH (fun _ o => [(o : Int)]) triplets [⟨10, 20, 0, 0, 1⟩]).getD
        (8 * 0 + 0 / 64) 0).testBit (0 % 64) = false) :=
  C5_bit_is_strict_comparison (fun _ o => [(o : Int)]) [⟨10, 20, 0, 0, 1⟩] 0 ⟨10, 20, 0, 0, 1⟩
    rfl 0 (by decide)

/-! ## Theorems: the driver -/

/-- What `main` does when the first image fails to load. -/
theorem main_first_null (env : Env) (h : (env.imread name).data = none) :
    main env = (Outcome.exit EXIT_FAILURE, [Event.imread name, Event.cerr openError]) := by
  simp [main, h]

/-- What `main` does when the first image loads and the second fails to load. -/
theorem main_second_null (env : Env) (h1 : (env.imread name).data ≠ none)
    (h2 : (env.imread name2).data = none) :
    main env = (Outcome.exit EXIT_FAILURE,
      [Event.imread name, Event.imread name2, Event.cerr openError]) := by
  have h1b : (env.imread name).data.isNone = false := by
    cases hd : (env.imread name).data with
    | none => exact absurd hd h1
    | some _ => rfl
  simp [main, h1b, h2]

/-- The pipelines `main` constructs: none when an image fails to load, otherwise the two
`KORAL` instances and then the `FeatureDetector`. -/
theorem constructedPipelines_main (env : Env) :
    constructedPipelines (main env).2 =
      if (env.imread name).data = none ∨ (env.imread name2).data = none then []
      else [(scale_factor, scale_levels), (scale_factor, scale_levels),
        (scaleFactor, scaleLevels)] := by
  cases h1 : (env.imread name).data with
  | none => simp [main, h1, constructedPipelines]
  | some px1 =>
    cases h2 : (env.imread name2).data with
    | none => simp [main, h1, h2, constructedPipelines]
    | some px2 =>
      simp only [main, h1, h2, Option.isNone_some, Bool.false_eq_true, if_false]
      cases (env.imread name).roi crop <;> cases (env.imread name2).roi crop <;>
        simp [constructedPipelines, mainMatch]

/-- C7: every pipeline the driver constructs satisfies `scale_factor > 1` and
`level_count ≥ 1`: when both images load, the pipelines constructed are the two `KORAL`
instances with `(1.2, 8)` and the `FeatureDetector` with `(1.2, 4)`, and otherwise none. -/
theorem C7_constructed_pipelines_valid (env : Env) :
    (∀ p ∈ constructedPipelines (main env).2, 1 < p.1 ∧ 1 ≤ p.2) ∧
    ((env.imread name).data ≠ none → (env.imread name2).data ≠ none →
      constructedPipelines (main env).2 = [(1.2, 8), (1.2, 8), (1.2, 4)]) ∧
    ((env.imread name).data = none ∨ (env.imread name2).data = none →
      constructedPipelines (main env).2 = []) := by
  rw [constructedPipelines_main]
  refine ⟨?_, ?_, ?_⟩
  · intro p hp
    split at hp
    · simp at hp
    · simp only [List.mem_cons, List.mem_singleton, List.mem_nil_iff, or_false] at hp
      rcases hp with h | h | h <;> subst h <;>
        norm_num [scale_factor, scale_levels, scaleFactor, scaleLevels]
  · intro h1 h2
    rw [if_neg (by tauto)]
    rfl
  · intro h
    rw [if_pos h]

/-- When both images load, `main` constructs and runs the first pipeline, reports no error and
does not return `EXIT_FAILURE`. -/
theorem main_both_loaded (env : Env) (h1 : (env.imread name).data ≠ none)
    (h2 : (env.imread name2).data ≠ none) :
    Event.koralGo (env.imread name).cols (env.imread name).rows KFAST_thresh ∈ (main env).2 ∧
    Event.koralGo (env.imread name2).cols (env.imread name2).rows KFAST_thresh ∈ (main env).2 ∧
    Event.cerr openError ∉ (main env).2 ∧ (main env).1 ≠ Outcome.exit EXIT_FAILURE := by
  cases h1c : (env.imread name).data with
  | none => exact absurd h1c h1
  | some px1 =>
    cases h2c : (env.imread name2).data with
    | none => exact absurd h2c h2
    | some px2 =>
      simp only [main, h1c, h2c, Option.isNone_some, Bool.false_eq_true, if_false]
      cases (env.imread name).roi crop <;> cases (env.imread name2).roi crop <;>
        simp [mainMatch, EXIT_FAILURE, EXIT_SUCCESS]

/-- C8: if either input image fails to load (null data pointer), `main` returns
`EXIT_FAILURE` after reporting an error and constructs or runs no pipeline (no `KORAL::go`,
`extractFeatures` or `matchFeatures` call); conversely a pipeline call happens only when both
images loaded with non-null data, and then the pipelines are run. -/
theorem C8_fail_fast_on_null_image (env : Env) :
    ((env.imread name).data = none ∨ (env.imread name2).data = none →
      (main env).1 = Outcome.exit EXIT_FAILURE ∧ Event.cerr openError ∈ (main env).2 ∧
      ∀ e ∈ (main env).2, e.isPipelineCall = false) ∧
    ((∃ e ∈ (main env).2, e.isPipelineCall = true) →
      (env.imread name).data ≠ none ∧ (env.imread name2).data ≠ none) ∧
    ((env.imread name).data ≠ none → (env.imread name2).data ≠ none →
      Event.koralGo (env.imread name).cols (env.imread name).rows KFAST_thresh ∈ (main env).2 ∧
      Event.koralGo (env.imread name2).cols (env.imread name2).rows KFAST_thresh
        ∈ (main env).2 ∧
      (main env).1 ≠ Outcome.exit EXIT_FAILURE) ∧
    EXIT_FAILURE ≠ EXIT_SUCCESS := by
  have hfail : (env.imread name).data = none ∨ (env.imread name2).data = none →
      (main env).1 = Outcome.exit EXIT_FAILURE ∧ Event.cerr openError ∈ (main env).2 ∧
      ∀ e ∈ (main env).2, e.isPipelineCall = false := by
    intro h
    by_cases h1 : (env.imread name).data = none
    · rw [main_first_null env h1]
      simp [Event.isPipelineCall]
    · have h2 : (env.imread name2).data = none := h.resolve_left h1
      rw [main_second_null env h1 h2]
      simp [Event.isPipelineCall]
  refine ⟨hfail, ?_, ?_, by decide⟩
  · rintro ⟨e, he, hp⟩
    by_contra hcon
    have hor : (env.imread name).data = none ∨ (env.imread name2).data = none := by
      by_cases h1 : (env.imread name).data = none
      · exact Or.inl h1
      · by_cases h2 : (env.imread name2).data = none
        · exact Or.inr h2
        · exact absurd ⟨h1, h2⟩ hcon
    have := (hfail hor).2.2 e he
    rw [this] at hp
    exact Bool.false_ne_true hp
  · intro h1 h2
    have h := main_both_loaded env h1 h2
    exact ⟨h.1, h.2.1, h.2.2.2⟩

/-- Witness of C8: a run in which `test1.jpg` loads as a 2 x 1 image and `test2.jpg` does not
load. -/
theorem C8_fail_fast_on_null_image_witness :
    main { imread := fun n => if n = name then ⟨some [7, 9], 2, 1⟩ else ⟨none, 0, 0⟩,
           koralKps := fun _ _ _ _ => [], detectorKps := fun _ => [] }
      = (Outcome.exit 1, [Event.imread "test1.jpg", Event.imread "test2.jpg",
          Event.cerr "ERROR: failed to open image. Aborting."]) ∧
    ∀ e ∈ (main { imread := fun n => if n = name then ⟨some [7, 9], 2, 1⟩ else ⟨none, 0, 0⟩,
                  koralKps := fun _ _ _ _ => [], detectorKps := fun _ => [] }).2,
      e.isPipelineCall = false :=
  ⟨by decide,
   ((C8_fail_fast_on_null_image
      { imread := fun n => if n = name then ⟨some [7, 9], 2, 1⟩ else ⟨none, 0, 0⟩,
        koralKps := fun _ _ _ _ => [], detectorKps := fun _ => [] }).1
      (Or.inr (by decide))).2.2⟩

/-! ## Theorems: degenerate records, pyramid levels and crop dimensions -/

/-- Every record has three pairwise different offsets. -/
theorem triplets_distinct_check :
    checkRecords (fun a b c _ => decide (a ≠ b) && decide (a ≠ c) && decide (b ≠ c))
      triplets = true := by decide!

/-- C11: no record of the pattern table is degenerate: for every record `i < 512` the three
offsets are pairwise distinct (anchor ≠ sample1, anchor ≠ sample2, sample1 ≠ sample2). -/
theorem C11_offsets_pairwise_distinct (i : Nat) (hi : i < descriptorBitCount) :
    anchor i ≠ sample1 i ∧ anchor i ≠ sample2 i ∧ sample1 i ≠ sample2 i := by
  have h := checkRecords_getD _ triplets triplets_distinct_check i (record_in_table i hi)
  simp only [Bool.and_eq_true, decide_eq_true_eq] at h
  exact ⟨h.1.1, h.1.2, h.2⟩

/-- Witness of C11 at record 319. -/
theorem C11_offsets_pairwise_distinct_witness :
    anchor 319 ≠ sample1 319 ∧ anchor 319 ≠ sample2 319 ∧ sample1 319 ≠ sample2 319 :=
  C11_offsets_pairwise_distinct 319 (by decide)

/-- C12: the number of pyramid levels the driver configures never exceeds the 8 per-level
texture slots `CLATCH` accepts (`d_all_tex[8]`): `scale_levels = 8` and `scaleLevels = 4` are
both at most 8, so for every pipeline `main` constructs, every level index in
`[0, level_count)` is a valid index into the 8-entry texture array. -/
theorem C12_levels_within_texture_slots (env : Env) :
    scale_levels = 8 ∧ scaleLevels = 4 ∧ d_all_tex_size = 8 ∧
    scale_levels ≤ d_all_tex_size ∧ scaleLevels ≤ d_all_tex_size ∧
    (∀ p ∈ constructedPipelines (main env).2,
      p.2 ≤ d_all_tex_size ∧ ∀ level, level < p.2 → level < d_all_tex_size) ∧
    ((env.imread name).data ≠ none → (env.imread name2).data ≠ none →
      (constructedPipelines (main env).2).map Prod.snd = [8, 8, 4]) := by
  refine ⟨rfl, rfl, rfl, by decide, by decide, ?_, ?_⟩
  · intro p hp
    have hle : p.2 ≤ d_all_tex_size := by
      rw [constructedPipelines_main] at hp
      split at hp
      · simp at hp
      · simp only [List.mem_cons, List.mem_singleton, List.mem_nil_iff, or_false] at hp
        rcases hp with h | h | h <;> subst h <;> decide
    exact ⟨hle, fun level hl => Nat.lt_of_lt_of_le hl hle⟩
  · intro h1 h2
    rw [constructedPipelines_main, if_neg (by tauto)]
    rfl

/-- A crop that succeeds has the rectangle's dimensions, and the rectangle lies in the image. -/
theorem Mat.roi_dims (m : Mat) (r : Rect) (m2 : Mat) (h : m.roi r = some m2) :
    m2.cols = r.width ∧ m2.rows = r.height ∧
    r.x + r.width ≤ m.cols ∧ r.y + r.height ≤ m.rows := by
  unfold Mat.roi at h
  split at h
  · next hin =>
    injection h with h
    subst h
    exact ⟨rfl, rfl, hin.1, hin.2⟩
  · exact absurd h (by simp)

/-- A rectangle inside the image can be cropped. -/
theorem Mat.roi_isSome (m : Mat) (r : Rect) (hc : r.x + r.width ≤ m.cols)
    (hr : r.y + r.height ≤ m.rows) : ∃ m2, m.roi r = some m2 := by
  unfold Mat.roi
  rw [if_pos ⟨hc, hr⟩]
  exact ⟨_, rfl⟩

/-- The images `main` hands to `extractFeatures`: none, or the two crops, both of the
dimensions of `crop`, after a detector constructed for 900 x 1100. -/
theorem extractedDims_main (env : Env) :
    (extractedDims (main env).2 = [] ∨
      (extractedDims (main env).2 = [(crop.width, crop.height), (crop.width, crop.height)] ∧
        detectorDims (main env).2 = [(900, 1100)] ∧
        (env.imread name).data ≠ none ∧ (env.imread name2).data ≠ none ∧
        ∃ img1 img2, (env.imread name).roi crop = some img1 ∧
          (env.imread name2).roi crop = some img2)) := by
  cases h1 : (env.imread name).data with
  | none => simp [main, h1, extractedDims]
  | some px1 =>
    cases h2 : (env.imread name2).data with
    | none => simp [main, h1, h2, extractedDims]
    | some px2 =>
      simp only [main, h1, h2, Option.isNone_some, Bool.false_eq_true, if_false]
      cases hr1 : (env.imread name).roi crop with
      | none => simp [extractedDims]
      | some img1 =>
        cases hr2 : (env.imread name2).roi crop with
        | none => simp [extractedDims]
        | some img2 =>
          have d1 := Mat.roi_dims _ _ _ hr1
          have d2 := Mat.roi_dims _ _ _ hr2
          right
          simp [extractedDims, detectorDims, mainMatch, d1.1, d1.2.1, d2.1, d2.2.1]

/-- When both images load and contain the crop rectangle, `main` runs to its end. -/
theorem main_crops_succeed (env : Env) (h1 : (env.imread name).data ≠ none)
    (h2 : (env.imread name2).data ≠ none)
    (hc1 : crop.x + crop.width ≤ (env.imread name).cols)
    (hr1 : crop.y + crop.height ≤ (env.imread name).rows)
    (hc2 : crop.x + crop.width ≤ (env.imread name2).cols)
    (hr2 : crop.y + crop.height ≤ (env.imread name2).rows) :
    (main env).1 = Outcome.exit EXIT_SUCCESS ∧ extractedDims (main env).2 ≠ [] := by
  obtain ⟨img1, e1⟩ := Mat.roi_isSome _ _ hc1 hr1
  obtain ⟨img2, e2⟩ := Mat.roi_isSome _ _ hc2 hr2
  cases h1c : (env.imread name).data with
  | none => exact absurd h1c h1
  | some px1 =>
    cases h2c : (env.imread name2).data with
    | none => exact absurd h2c h2
    | some px2 =>
      simp [main, h1c, h2c, e1, e2, extractedDims, mainMatch]

/-- C13: both images handed to `FeatureDetector::extractFeatures` have exactly the dimensions
the detector was constructed with: the detector is built for 900 x 1100 and each of `img1` and
`img2` is the crop `Rect(1470, 1350, 900, 1100)` of its source image, width 900 and height
1100; when both source images load and contain the rectangle, exactly these two images are
handed over. -/
theorem C13_extracted_images_match_detector (env : Env) :
    crop = { x := 1470, y := 1350, width := 900, height := 1100 } ∧
    (∀ d ∈ extractedDims (main env).2,
      d = (900, 1100) ∧ d = (crop.width, crop.height) ∧ detectorDims (main env).2 = [d]) ∧
    (∀ img, (env.imread name).roi crop = some img ∨ (env.imread name2).roi crop = some img →
      img.cols = 900 ∧ img.rows = 1100) ∧
    ((env.imread name).data ≠ none → (env.imread name2).data ≠ none →
      crop.x + crop.width ≤ (env.imread name).cols →
      crop.y + crop.height ≤ (env.imread name).rows →
      crop.x + crop.width ≤ (env.imread name2).cols →
      crop.y + crop.height ≤ (env.imread name2).rows →
      extractedDims (main env).2 = [(900, 1100), (900, 1100)] ∧
      detectorDims (main env).2 = [(900, 1100)]) := by
  have hmain := extractedDims_main env
  refine ⟨rfl, ?_, ?_, ?_⟩
  · intro d hd
    rcases hmain with h | ⟨h, hdet, _⟩
    · rw [h] at hd
      simp at hd
    · rw [h] at hd
      have hd2 : d = (crop.width, crop.height) := by
        simp only [List.mem_cons, List.mem_singleton, List.mem_nil_iff, or_false, or_self] at hd
        exact hd
      subst hd2
      exact ⟨rfl, rfl, hdet⟩
  · intro img himg
    rcases himg with h | h
    · exact ⟨(Mat.roi_dims _ _ _ h).1, (Mat.roi_dims _ _ _ h).2.1⟩
    · exact ⟨(Mat.roi_dims _ _ _ h).1, (Mat.roi_dims _ _ _ h).2.1⟩
  · intro h1 h2 hc1 hr1 hc2 hr2
    have hne := (main_crops_succeed env h1 h2 hc1 hr1 hc2 hr2).2
    rcases hmain with h | ⟨h, hdet, _⟩
    · exact absurd h hne
    · exact ⟨h, hdet⟩

/-- Witness of C13: a run in which both files load as 2370 x 2450 images, the smallest that
contain the crop rectangle. -/
theorem C13_extracted_images_match_detector_witness :
    extractedDims (main { imread := fun _ => ⟨some [], 2370, 2450⟩,
                          koralKps := fun _ _ _ _ => [],
                          detectorKps := fun _ => [] }).2 = [(900, 1100), (900, 1100)] ∧
    detectorDims (main { imread := fun _ => ⟨some [], 2370, 2450⟩,
                         koralKps := fun _ _ _ _ => [],
                         detectorKps := fun _ => [] }).2 = [(900, 1100)] :=
  (C13_extracted_images_match_detector
    { imread := fun _ => ⟨some [], 2370, 2450⟩, koralKps := fun _ _ _ _ => [],
      detectorKps := fun _ => [] }).2.2.2
    (by decide) (by decide) (by decide) (by decide) (by decide) (by decide)

/-! ## Theorems: `float` arithmetic -/

/-- With enough fuel the halving count brackets `n` between two powers of two. -/
theorem log2Fuel_spec : ∀ (fuel n : Nat), 1 ≤ n → n ≤ fuel →
    2 ^ log2Fuel fuel n ≤ n ∧ n < 2 ^ (log2Fuel fuel n + 1)
  | 0, n, h1, h2 => by omega
  | fuel + 1, n, h1, h2 => by
    unfold log2Fuel
    split
    · next h =>
      have ih := log2Fuel_spec fuel (n / 2) (by omega) (by omega)
      constructor
      · calc 2 ^ (log2Fuel fuel (n / 2) + 1) = 2 ^ log2Fuel fuel (n / 2) * 2 := pow_succ _ _
          _ ≤ (n / 2) * 2 := Nat.mul_le_mul_right 2 ih.1
          _ ≤ n := Nat.div_mul_le_self n 2
      · have h3 : n / 2 + 1 ≤ 2 ^ (log2Fuel fuel (n / 2) + 1) := ih.2
        calc n < (n / 2 + 1) * 2 := by omega
          _ ≤ 2 ^ (log2Fuel fuel (n / 2) + 1) * 2 := Nat.mul_le_mul_right 2 h3
          _ = 2 ^ (log2Fuel fuel (n / 2) + 1 + 1) := (pow_succ _ _).symm
    · next h =>
      have : n = 1 := by omega
      subst this
      simp

/-- The leading bit position brackets `n ≥ 1` between two powers of two. -/
theorem ilog2_spec (n : Nat) (h : 1 ≤ n) : 2 ^ ilog2 n ≤ n ∧ n < 2 ^ (ilog2 n + 1) :=
  log2Fuel_spec n n h (Nat.le_refl n)

/-- An integer rounds to itself. -/
theorem roundHalfEven_intCast (k : Int) : roundHalfEven (k : ℚ) = k := by
  unfold roundHalfEven
  simp

/-- Rounding to an integer moves a value by at most one half. -/
theorem roundHalfEven_error (m : ℚ) : |((roundHalfEven m : Int) : ℚ) - m| ≤ 1 / 2 := by
  unfold roundHalfEven
  have h1 : ((⌊m⌋ : Int) : ℚ) ≤ m := Int.floor_le m
  have h2 : m < ((⌊m⌋ : Int) : ℚ) + 1 := Int.lt_floor_add_one m
  simp only
  split_ifs with c1 c2 c3
  · rw [abs_le]; constructor <;> linarith
  · rw [abs_le]; push_cast; constructor <;> linarith
  · rw [abs_le]; constructor <;> linarith
  · rw [abs_le]; push_cast; constructor <;> linarith

/-- The magnitude of a rational, from its numerator and denominator. -/
theorem abs_eq_natAbs_div_den (q : ℚ) : |q| = (q.num.natAbs : ℚ) / (q.den : ℚ) := by
  have h : q = (q.num : ℚ) / (q.den : ℚ) := (Rat.num_div_den q).symm
  have hd : (0 : ℚ) < (q.den : ℚ) := by exact_mod_cast q.den_pos
  conv_lhs => rw [h]
  rw [abs_div, abs_of_pos hd, Nat.cast_natAbs, Int.cast_abs]

/-- The binary exponent brackets `|q|` between two powers of two. -/
theorem binaryExponent_spec (q : ℚ) (hq : q ≠ 0) :
    (2 : ℚ) ^ binaryExponent q ≤ |q| ∧ |q| < (2 : ℚ) ^ (binaryExponent q + 1) := by
  have hN1 : 1 ≤ q.num.natAbs := by
    have : q.num ≠ 0 := Rat.num_ne_zero.mpr hq
    omega
  have hD1 : 1 ≤ q.den := q.den_pos
  obtain ⟨hNl, hNu⟩ := ilog2_spec _ hN1
  obtain ⟨hDl, hDu⟩ := ilog2_spec _ hD1
  have hNl' : (2 : ℚ) ^ ilog2 q.num.natAbs ≤ (q.num.natAbs : ℚ) := by exact_mod_cast hNl
  have hNu' : (q.num.natAbs : ℚ) < (2 : ℚ) ^ (ilog2 q.num.natAbs + 1) := by exact_mod_cast hNu
  have hDl' : (2 : ℚ) ^ ilog2 q.den ≤ (q.den : ℚ) := by exact_mod_cast hDl
  have hDu' : (q.den : ℚ) < (2 : ℚ) ^ (ilog2 q.den + 1) := by exact_mod_cast hDu
  have hDpos : (0 : ℚ) < (q.den : ℚ) := by exact_mod_cast q.den_pos
  have hpD : (0 : ℚ) < (2 : ℚ) ^ ilog2 q.den := by positivity
  have hpN : (0 : ℚ) < (2 : ℚ) ^ ilog2 q.num.natAbs := by positivity
  have ha := abs_eq_natAbs_div_den q
  have he0 : (2 : ℚ) ^ ((ilog2 q.num.natAbs : Int) - (ilog2 q.den : Int))
      = (2 : ℚ) ^ ilog2 q.num.natAbs / (2 : ℚ) ^ ilog2 q.den := by
    rw [zpow_sub₀ (two_ne_zero), zpow_natCast, zpow_natCast]
  unfold binaryExponent
  simp only
  split_ifs with hlt
  · constructor
    · rw [zpow_sub_one₀ (two_ne_zero), he0, ha, div_mul_eq_mul_div, div_le_div_iff₀ (by positivity) hDpos]
      have : (2 : ℚ) ^ ilog2 q.num.natAbs * 2⁻¹ * (q.den : ℚ)
          ≤ (q.num.natAbs : ℚ) * (2 : ℚ) ^ ilog2 q.den := by
        have h3 : (q.den : ℚ) * 2⁻¹ ≤ (2 : ℚ) ^ ilog2 q.den := by
          rw [pow_succ] at hDu'
          linarith
        calc (2 : ℚ) ^ ilog2 q.num.natAbs * 2⁻¹ * (q.den : ℚ)
            = (2 : ℚ) ^ ilog2 q.num.natAbs * ((q.den : ℚ) * 2⁻¹) := by ring
          _ ≤ (2 : ℚ) ^ ilog2 q.num.natAbs * (2 : ℚ) ^ ilog2 q.den :=
              mul_le_mul_of_nonneg_left h3 hpN.le
          _ ≤ (q.num.natAbs : ℚ) * (2 : ℚ) ^ ilog2 q.den :=
              mul_le_mul_of_nonneg_right hNl' hpD.le
      exact this
    · simpa using hlt
  · constructor
    · exact not_lt.mp hlt
    · rw [zpow_add_one₀ (two_ne_zero), he0, ha, div_mul_eq_mul_div, div_lt_div_iff₀ hDpos hpD]
      calc (q.num.natAbs : ℚ) * (2 : ℚ) ^ ilog2 q.den
          ≤ (q.num.natAbs : ℚ) * (q.den : ℚ) := mul_le_mul_of_nonneg_left hDl' (by positivity)
        _ < (2 : ℚ) ^ (ilog2 q.num.natAbs + 1) * (q.den : ℚ) := mul_lt_mul_of_pos_right hNu' hDpos
        _ = (2 : ℚ) ^ ilog2 q.num.natAbs * 2 * (q.den : ℚ) := by rw [pow_succ]

/-- The spacing is positive. -/
theorem quantum_pos (p : Nat) (emin : Int) (q : ℚ) : 0 < quantum p emin q := by
  unfold quantum
  positivity

/-- The rounded magnitude is within half the spacing of `|q|`. -/
theorem roundMagnitude_error (p : Nat) (emin : Int) (q : ℚ) :
    abs (roundMagnitude p emin q - |q|) ≤ quantum p emin q / 2 := by
  have hpos := quantum_pos p emin q
  have herr := roundHalfEven_error (|q| / quantum p emin q)
  have e1 : roundMagnitude p emin q - |q|
      = (((roundHalfEven (|q| / quantum p emin q) : Int) : ℚ) - |q| / quantum p emin q)
        * quantum p emin q := by
    unfold roundMagnitude
    field_simp
  rw [e1, abs_mul, abs_of_pos hpos]
  calc _ ≤ 1 / 2 * quantum p emin q := mul_le_mul_of_nonneg_right herr hpos.le
    _ = _ := by ring

/-- A magnitude that is a multiple of the spacing is not moved. -/
theorem roundMagnitude_exact (p : Nat) (emin : Int) (q : ℚ) (k : Int)
    (hk : |q| / quantum p emin q = (k : ℚ)) : roundMagnitude p emin q = |q| := by
  unfold roundMagnitude
  rw [hk, roundHalfEven_intCast, ← hk, div_mul_cancel₀ _ (quantum_pos p emin q).ne']

/-- A value that is a multiple of the spacing, below the overflow threshold, rounds to
itself. -/
theorem roundBinary_exact (p : Nat) (emin emax : Int) (q : ℚ) (k : Int)
    (hk : |q| / quantum p emin q = (k : ℚ))
    (hmax : |q| < (2 : ℚ) ^ (emax + 1)) : roundBinary p emin emax q = some q := by
  have hr := roundMagnitude_exact p emin q k hk
  unfold roundBinary
  by_cases h0 : q = 0
  · rw [if_pos h0, h0]
  · rw [if_neg h0, hr, if_pos hmax]
    congr 1
    by_cases hneg : q < 0
    · rw [if_pos hneg, abs_of_neg hneg, neg_neg]
    · rw [if_neg hneg, abs_of_nonneg (not_lt.mp hneg)]

/-- A finite rounded value is within half the spacing of the exact value. -/
theorem roundBinary_error (p : Nat) (emin emax : Int) (q r : ℚ)
    (h : roundBinary p emin emax q = some r) : |r - q| ≤ quantum p emin q / 2 := by
  have hpos := quantum_pos p emin q
  have hR := roundMagnitude_error p emin q
  unfold roundBinary at h
  by_cases h0 : q = 0
  · rw [if_pos h0] at h
    injection h with h
    rw [← h, h0, sub_self, abs_zero]
    exact (half_pos (quantum_pos p emin 0)).le
  · rw [if_neg h0] at h
    by_cases hov : roundMagnitude p emin q < (2 : ℚ) ^ (emax + 1)
    · rw [if_pos hov] at h
      injection h with h
      rw [← h]
      by_cases hneg : q < 0
      · rw [if_pos hneg]
        rw [abs_of_neg hneg] at hR
        have : -roundMagnitude p emin q - q = -(roundMagnitude p emin q - -q) := by ring
        rw [this, abs_neg]
        exact hR
      · rw [if_neg hneg]
        rw [abs_of_nonneg (not_lt.mp hneg)] at hR
        exact hR
    · rw [if_neg hov] at h
      exact absurd h (by simp)

/-- Relative form: in the normal range the rounding error is at most `2 ^ (-p)` of `|q|`. -/
theorem roundBinary_rel_error (p : Nat) (emin emax : Int) (q r : ℚ)
    (h : roundBinary p emin emax q = some r) (hn : (2 : ℚ) ^ emin ≤ |q|) :
    |r - q| ≤ (2 : ℚ) ^ (-(p : Int)) * |q| := by
  have hq : q ≠ 0 := by
    intro h0
    rw [h0, abs_zero] at hn
    exact absurd hn (not_le.mpr (by positivity))
  obtain ⟨hl, hu⟩ := binaryExponent_spec q hq
  have hemin : emin ≤ binaryExponent q := by
    by_contra hc
    have hlt : binaryExponent q + 1 ≤ emin := by omega
    have : (2 : ℚ) ^ (binaryExponent q + 1) ≤ (2 : ℚ) ^ emin :=
      zpow_le_zpow_right₀ (by norm_num) hlt
    linarith
  have herr := roundBinary_error p emin emax q r h
  have hquant : quantum p emin q / 2 = (2 : ℚ) ^ (-(p : Int)) * (2 : ℚ) ^ binaryExponent q := by
    unfold quantum
    rw [max_eq_left hemin, ← zpow_add₀ (two_ne_zero),
      show binaryExponent q - (p : Int) + 1 = (-(p : Int) + binaryExponent q) + 1 by ring,
      zpow_add_one₀ (two_ne_zero)]
    ring
  rw [hquant] at herr
  calc |r - q| ≤ (2 : ℚ) ^ (-(p : Int)) * (2 : ℚ) ^ binaryExponent q := herr
    _ ≤ (2 : ℚ) ^ (-(p : Int)) * |q| := mul_le_mul_of_nonneg_left hl (by positivity)

/-- An integer of magnitude at most `2 ^ 24` is a `float`: converting it changes nothing. -/
theorem toFloat_intCast (z : Int) (hz : |z| ≤ 2 ^ 24) : toFloat (z : ℚ) = some (z : ℚ) := by
  by_cases h0 : z = 0
  · subst h0
    simp [toFloat, roundBinary]
  · have hq : (z : ℚ) ≠ 0 := by exact_mod_cast h0
    have habs : |(z : ℚ)| = ((|z| : Int) : ℚ) := by push_cast; rfl
    have h1 : (1 : ℚ) ≤ |(z : ℚ)| := by
      rw [habs]
      have : 1 ≤ |z| := Int.one_le_abs h0
      exact_mod_cast this
    have h24 : |(z : ℚ)| ≤ (2 : ℚ) ^ (24 : Int) := by
      rw [habs]
      have e : (2 : ℚ) ^ (24 : Int) = ((2 ^ 24 : Int) : ℚ) := by norm_num
      rw [e]
      exact_mod_cast hz
    obtain ⟨hl, hu⟩ := binaryExponent_spec (z : ℚ) hq
    have hge : 0 ≤ binaryExponent (z : ℚ) := by
      by_contra hc
      have hle : binaryExponent (z : ℚ) + 1 ≤ 0 := by omega
      have : (2 : ℚ) ^ (binaryExponent (z : ℚ) + 1) ≤ (2 : ℚ) ^ (0 : Int) :=
        zpow_le_zpow_right₀ (by norm_num) hle
      simp at this
      linarith
    have hle : binaryExponent (z : ℚ) ≤ 24 := by
      by_contra hc
      have h25 : (25 : Int) ≤ binaryExponent (z : ℚ) := by omega
      have h2 : (2 : ℚ) ^ (25 : Int) ≤ (2 : ℚ) ^ binaryExponent (z : ℚ) :=
        zpow_le_zpow_right₀ (by norm_num) h25
      have h3 : (2 : ℚ) ^ (24 : Int) < (2 : ℚ) ^ (25 : Int) := by norm_num
      linarith
    obtain ⟨n, hn⟩ := Int.eq_ofNat_of_zero_le hge
    have hn24 : n ≤ 24 := by omega
    have hquant : quantum 24 (-126) (z : ℚ) = (2 : ℚ) ^ ((n : Int) - 23) := by
      unfold quantum
      rw [hn, max_eq_left (by omega)]
      congr 1
      push_cast
      ring
    have hmax : |(z : ℚ)| < (2 : ℚ) ^ ((127 : Int) + 1) := by
      have : (2 : ℚ) ^ (24 : Int) < (2 : ℚ) ^ ((127 : Int) + 1) := by norm_num
      linarith
    unfold toFloat
    by_cases hn23 : n ≤ 23
    · refine roundBinary_exact 24 (-126) 127 (z : ℚ) (|z| * 2 ^ (23 - n)) ?_ hmax
      have hexp : (n : Int) - 23 = -(((23 - n : Nat)) : Int) := by omega
      rw [hquant, hexp, zpow_neg, zpow_natCast, div_inv_eq_mul, habs]
      push_cast
      rfl
    · have hn' : n = 24 := by omega
      subst hn'
      have heq : |(z : ℚ)| = (2 : ℚ) ^ (24 : Int) := by
        rw [hn] at hl
        have : (2 : ℚ) ^ ((24 : Nat) : Int) = (2 : ℚ) ^ (24 : Int) := by norm_num
        rw [this] at hl
        exact le_antisymm h24 hl
      refine roundBinary_exact 24 (-126) 127 (z : ℚ) (2 ^ 23) ?_ hmax
      rw [hquant, heq]
      norm_num

/-- Zero is a `float`. -/
theorem toFloat_zero : toFloat 0 = some 0 := by
  simp [toFloat, roundBinary]

/-- A finite `float` times zero is zero. -/
theorem fmul_zero_right (c : ℚ) : fmul (some c) (some 0) = some 0 := by
  simp [fmul, toFloat_zero]

/-- One times a finite value is that value, rounded. -/
theorem fmul_one_left (q : ℚ) : fmul (some 1) (some q) = toFloat q := by
  simp [fmul]

/-- A `float` conversion in the normal range is accurate to `2 ^ (-24)` of the value. -/
theorem toFloat_rel_error (q r : ℚ) (h : toFloat q = some r)
    (hn : (2 : ℚ) ^ (-126 : Int) ≤ |q|) : |r - q| ≤ (2 : ℚ) ^ (-24 : Int) * |q| :=
  roundBinary_rel_error 24 (-126) 127 q r h hn

/-- A `double` conversion in the normal range is accurate to `2 ^ (-53)` of the value. -/
theorem toDouble_rel_error (q r : ℚ) (h : toDouble q = some r)
    (hn : (2 : ℚ) ^ (-1022 : Int) ≤ |q|) : |r - q| ≤ (2 : ℚ) ^ (-53 : Int) * |q| :=
  roundBinary_rel_error 53 (-1022) 1023 q r h hn

/-- Relative errors of two factors add up, with their product, in the product. -/
theorem approx_mul (a A b B α β : ℚ) (ha : |a - A| ≤ α * |A|) (hb : |b - B| ≤ β * |B|) :
    |a * b - A * B| ≤ (α + β + α * β) * |A * B| := by
  have e : a * b - A * B = (a - A) * (b - B) + (a - A) * B + A * (b - B) := by ring
  have h0a : 0 ≤ |a - A| := abs_nonneg _
  have h0b : 0 ≤ |b - B| := abs_nonneg _
  have hA : 0 ≤ |A| := abs_nonneg _
  have hB : 0 ≤ |B| := abs_nonneg _
  have hαA : 0 ≤ α * |A| := le_trans h0a ha
  calc |a * b - A * B| = |(a - A) * (b - B) + (a - A) * B + A * (b - B)| := by rw [e]
    _ ≤ |(a - A) * (b - B)| + |(a - A) * B| + |A * (b - B)| := abs_add_three _ _ _
    _ = |a - A| * |b - B| + |a - A| * |B| + |A| * |b - B| := by rw [abs_mul, abs_mul, abs_mul]
    _ ≤ (α * |A|) * (β * |B|) + (α * |A|) * |B| + |A| * (β * |B|) := by
        have t1 : |a - A| * |b - B| ≤ (α * |A|) * (β * |B|) := mul_le_mul ha hb h0b hαA
        have t2 : |a - A| * |B| ≤ (α * |A|) * |B| := mul_le_mul_of_nonneg_right ha hB
        have t3 : |A| * |b - B| ≤ |A| * (β * |B|) := mul_le_mul_of_nonneg_left hb hA
        linarith
    _ = (α + β + α * β) * |A * B| := by rw [abs_mul]; ring

/-- Rounding an approximation of `P` to `float` adds `2 ^ (-24)` of it to the relative error. -/
theorem approx_toFloat (p P q γ : ℚ) (h : toFloat p = some q)
    (hn : (2 : ℚ) ^ (-126 : Int) ≤ |p|) (hp : |p - P| ≤ γ * |P|) :
    |q - P| ≤ (γ + (2 : ℚ) ^ (-24 : Int) * (1 + γ)) * |P| := by
  have hr := toFloat_rel_error p q h hn
  have hpP : |p| ≤ (1 + γ) * |P| := by
    have : |p| ≤ |p - P| + |P| := by
      have := abs_add (p - P) P
      simpa using this
    linarith
  have h24 : (0 : ℚ) ≤ (2 : ℚ) ^ (-24 : Int) := by positivity
  calc |q - P| = |(q - p) + (p - P)| := by ring_nf
    _ ≤ |q - p| + |p - P| := abs_add _ _
    _ ≤ (2 : ℚ) ^ (-24 : Int) * |p| + γ * |P| := add_le_add hr hp
    _ ≤ (2 : ℚ) ^ (-24 : Int) * ((1 + γ) * |P|) + γ * |P| := by
        have := mul_le_mul_of_nonneg_left hpP h24
        linarith
    _ = (γ + (2 : ℚ) ^ (-24 : Int) * (1 + γ)) * |P| := by ring

/-- An approximation with relative error below one half keeps at least half the magnitude. -/
theorem approx_half (a A γ : ℚ) (h : |a - A| ≤ γ * |A|) (hγ : γ ≤ 1 / 2) :
    |A| / 2 ≤ |a| := by
  have h1 : |A| ≤ |A - a| + |a| := by
    have := abs_add (A - a) a
    simpa using this
  rw [abs_sub_comm] at h1
  have h2 : γ * |A| ≤ 1 / 2 * |A| := mul_le_mul_of_nonneg_right hγ (abs_nonneg _)
  linarith

/-- The `float` the literal `1.2f` denotes. -/
theorem toFloat_scale_factor : toFloat scale_factor = some (5033165 / 4194304) := by decide!

/-- The `float` scale of a level is `scale_factor ^ level` to within `2 ^ (-23)` of it. -/
theorem levelScale_error (level : Nat) (s : ℚ) (h : levelScale level = some s) :
    |s - (5033165 / 4194304 : ℚ) ^ level| ≤ (2 : ℚ) ^ (-23 : Int) * |(5033165 / 4194304 : ℚ) ^ level| := by
  unfold levelScale at h
  rw [toFloat_scale_factor] at h
  simp only [Option.some_bind, std_pow] at h
  obtain ⟨d, hd, hs⟩ := Option.bind_eq_some.mp h
  have hP1 : (1 : ℚ) ≤ (5033165 / 4194304 : ℚ) ^ level := one_le_pow₀ (by norm_num)
  have hPabs : |(5033165 / 4194304 : ℚ) ^ level| = (5033165 / 4194304 : ℚ) ^ level :=
    abs_of_pos (by linarith)
  have hdn : (2 : ℚ) ^ (-1022 : Int) ≤ |(5033165 / 4194304 : ℚ) ^ level| := by
    rw [hPabs]
    have : (2 : ℚ) ^ (-1022 : Int) ≤ 1 := zpow_le_one_of_nonpos₀ (by norm_num) (by norm_num)
    exact le_trans this hP1
  have hderr := toDouble_rel_error _ d hd hdn
  have hdhalf := approx_half d _ _ hderr (by norm_num)
  have hsn : (2 : ℚ) ^ (-126 : Int) ≤ |d| := by
    have : (2 : ℚ) ^ (-126 : Int) ≤ 1 / 2 := by
      rw [show (1 / 2 : ℚ) = (2 : ℚ) ^ (-1 : Int) by norm_num]
      exact zpow_le_zpow_right₀ (by norm_num) (by norm_num)
    rw [hPabs] at hdhalf
    have h2 : (1 : ℚ) / 2 ≤ (5033165 / 4194304 : ℚ) ^ level / 2 :=
      div_le_div_of_nonneg_right hP1 (by norm_num)
    exact le_trans this (le_trans h2 hdhalf)
  have hfin := approx_toFloat d _ s _ hs hsn hderr
  refine le_trans hfin (mul_le_mul_of_nonneg_right ?_ (abs_nonneg _))
  norm_num

/-- Unpacking a finite `float` product. -/
theorem fmul_eq_some (a b : Option ℚ) (q : ℚ) (h : fmul a b = some q) :
    ∃ x y, a = some x ∧ b = some y ∧ toFloat (x * y) = some q := by
  cases a with
  | none => simp [fmul] at h
  | some x =>
    cases b with
    | none => simp [fmul] at h
    | some y => exact ⟨x, y, rfl, rfl, by simpa [fmul] using h⟩

/-- The `float` constant `180.0f / 3.1415926535f`. -/
theorem angleFactor_eq :
    ((toFloat 180).bind (fun a => (toFloat 3.1415926535).bind (fun b => fdiv a b)))
      = some (469367 / 8192) := by decide!

/-- The `float` the literal `7.0f` denotes. -/
theorem toFloat_seven : toFloat 7 = some 7 := by decide!

/-- The scaled coordinate is `scale_factor ^ level * x` to within `2 ^ (-21)` of it. -/
theorem scaled_coordinate_error (level : Nat) (x : Int) (q : ℚ)
    (h : fmul (levelScale level) (toFloat (x : ℚ)) = some q) :
    |q - (5033165 / 4194304 : ℚ) ^ level * (x : ℚ)|
      ≤ (2 : ℚ) ^ (-21 : Int) * |(5033165 / 4194304 : ℚ) ^ level * (x : ℚ)| := by
  obtain ⟨s, xf, hs, hx, hq⟩ := fmul_eq_some _ _ _ h
  by_cases h0 : x = 0
  · subst h0
    rw [Int.cast_zero, toFloat_zero] at hx
    injection hx with hx
    rw [← hx, mul_zero, toFloat_zero] at hq
    injection hq with hq
    rw [← hq]
    simp
  · have hserr := levelScale_error level s hs
    have hP1 : (1 : ℚ) ≤ (5033165 / 4194304 : ℚ) ^ level := one_le_pow₀ (by norm_num)
    have hPabs : (1 : ℚ) ≤ |(5033165 / 4194304 : ℚ) ^ level| := by
      rw [abs_of_pos (by linarith)]; exact hP1
    have hx1 : (1 : ℚ) ≤ |(x : ℚ)| := by
      have : 1 ≤ |x| := Int.one_le_abs h0
      have h2 : ((1 : Int) : ℚ) ≤ ((|x| : Int) : ℚ) := by exact_mod_cast this
      simpa using h2
    have hxn : (2 : ℚ) ^ (-126 : Int) ≤ |(x : ℚ)| :=
      le_trans (zpow_le_one_of_nonpos₀ (by norm_num) (by norm_num)) hx1
    have hxerr := toFloat_rel_error _ xf hx hxn
    have hprod := approx_mul s _ xf _ _ _ hserr hxerr
    have hs2 := approx_half s _ _ hserr (by norm_num)
    have hx2 := approx_half xf _ _ hxerr (by norm_num)
    have hs3 : (1 : ℚ) / 2 ≤ |s| :=
      le_trans (div_le_div_of_nonneg_right hPabs (by norm_num)) hs2
    have hx3 : (1 : ℚ) / 2 ≤ |xf| :=
      le_trans (div_le_div_of_nonneg_right hx1 (by norm_num)) hx2
    have hpn : (2 : ℚ) ^ (-126 : Int) ≤ |s * xf| := by
      rw [abs_mul]
      have h4 : (1 : ℚ) / 2 * (1 / 2) ≤ |s| * |xf| :=
        mul_le_mul hs3 hx3 (by norm_num) (abs_nonneg _)
      have h5 : (2 : ℚ) ^ (-126 : Int) ≤ 1 / 2 * (1 / 2) := by
        rw [show (1 / 2 * (1 / 2) : ℚ) = (2 : ℚ) ^ (-2 : Int) by norm_num]
        exact zpow_le_zpow_right₀ (by norm_num) (by norm_num)
      exact le_trans h5 h4
    have hfin := approx_toFloat _ _ q _ hq hpn hprod
    refine le_trans hfin (mul_le_mul_of_nonneg_right ?_ (abs_nonneg _))
    norm_num

/-- The display size is `7 * scale_factor ^ level` to within `2 ^ (-22)` of it. -/
theorem display_size_error (level : Nat) (q : ℚ)
    (h : fmul (toFloat 7) (levelScale level) = some q) :
    |q - 7 * (5033165 / 4194304 : ℚ) ^ level|
      ≤ (2 : ℚ) ^ (-22 : Int) * |7 * (5033165 / 4194304 : ℚ) ^ level| := by
  obtain ⟨c, s, hc, hs, hq⟩ := fmul_eq_some _ _ _ h
  rw [toFloat_seven] at hc
  injection hc with hc
  subst hc
  have hserr := levelScale_error level s hs
  have hP1 : (1 : ℚ) ≤ (5033165 / 4194304 : ℚ) ^ level := one_le_pow₀ (by norm_num)
  have hPabs : (1 : ℚ) ≤ |(5033165 / 4194304 : ℚ) ^ level| := by
    rw [abs_of_pos (by linarith)]; exact hP1
  have h7 : |(7 : ℚ) - 7| ≤ 0 * |(7 : ℚ)| := by simp
  have hprod := approx_mul 7 7 s _ 0 _ h7 hserr
  have hs2 := approx_half s _ _ hserr (by norm_num)
  have hs3 : (1 : ℚ) / 2 ≤ |s| :=
    le_trans (div_le_div_of_nonneg_right hPabs (by norm_num)) hs2
  have hpn : (2 : ℚ) ^ (-126 : Int) ≤ |7 * s| := by
    rw [abs_mul]
    have h4 : (7 : ℚ) * (1 / 2) ≤ |(7 : ℚ)| * |s| := by
      rw [abs_of_pos (by norm_num : (0 : ℚ) < 7)]
      exact mul_le_mul_of_nonneg_left hs3 (by norm_num)
    have h5 : (2 : ℚ) ^ (-126 : Int) ≤ 7 * (1 / 2) :=
      le_trans (zpow_le_one_of_nonpos₀ (by norm_num) (by norm_num)) (by norm_num)
    exact le_trans h5 h4
  have hfin := approx_toFloat _ _ q _ hq hpn hprod
  refine le_trans hfin (mul_le_mul_of_nonneg_right ?_ (abs_nonneg _))
  norm_num

/-- The angle in degrees is `angle * 180 / 3.1415926535` to within `2 ^ (-22)` of it, for an
angle of magnitude `2 ^ (-130)` or more. -/
theorem degrees_error (angle q : ℚ) (h : fmul (some (469367 / 8192)) (some angle) = some q)
    (hn : (2 : ℚ) ^ (-130 : Int) ≤ |angle|) :
    |q - angle * 180 / 3.1415926535| ≤ (2 : ℚ) ^ (-22 : Int) * |angle * 180 / 3.1415926535| := by
  have hq : toFloat (469367 / 8192 * angle) = some q := by simpa [fmul] using h
  have hc : |(469367 / 8192 : ℚ) - 180 / 3.1415926535|
      ≤ (2 : ℚ) ^ (-24 : Int) * |(180 / 3.1415926535 : ℚ)| := by
    rw [abs_le]
    constructor <;> norm_num [abs_of_pos]
  have ha : |angle - angle| ≤ 0 * |angle| := by simp
  have hprod := approx_mul _ _ angle angle _ 0 hc ha
  have hpn : (2 : ℚ) ^ (-126 : Int) ≤ |469367 / 8192 * angle| := by
    rw [abs_mul, abs_of_pos (by norm_num : (0 : ℚ) < 469367 / 8192)]
    have h1 : (16 : ℚ) * (2 : ℚ) ^ (-130 : Int) ≤ 469367 / 8192 * |angle| :=
      mul_le_mul (by norm_num) hn (by positivity) (by norm_num)
    have h2 : (2 : ℚ) ^ (-126 : Int) = 16 * (2 : ℚ) ^ (-130 : Int) := by
      rw [show (16 : ℚ) = (2 : ℚ) ^ (4 : Int) by norm_num, ← zpow_add₀ (two_ne_zero)]
      norm_num
    rw [h2]
    exact h1
  have hfin := approx_toFloat _ _ q _ hq hpn hprod
  have e : angle * 180 / 3.1415926535 = 180 / 3.1415926535 * angle := by ring
  rw [e]
  refine le_trans hfin (mul_le_mul_of_nonneg_right ?_ (abs_nonneg _))
  norm_num

/-- Half the spacing around `q ≠ 0` is at most `2 ^ (-p)` of `|q|`, or `2 ^ (emin - p)` in the
subnormal range. -/
theorem quantum_half_le (p : Nat) (emin : Int) (q : ℚ) (hq : q ≠ 0) :
    quantum p emin q / 2 ≤ (2 : ℚ) ^ (-(p : Int)) * |q| + (2 : ℚ) ^ (emin - (p : Int)) := by
  obtain ⟨hl, _⟩ := binaryExponent_spec q hq
  have h1 : (0 : ℚ) ≤ (2 : ℚ) ^ (-(p : Int)) * |q| := by positivity
  have h2 : (0 : ℚ) ≤ (2 : ℚ) ^ (emin - (p : Int)) := by positivity
  unfold quantum
  by_cases he : emin ≤ binaryExponent q
  · rw [max_eq_left he,
      show binaryExponent q - (p : Int) + 1 = (-(p : Int) + binaryExponent q) + 1 by ring,
      zpow_add_one₀ (two_ne_zero), zpow_add₀ (two_ne_zero)]
    have h3 : (2 : ℚ) ^ (-(p : Int)) * (2 : ℚ) ^ binaryExponent q
        ≤ (2 : ℚ) ^ (-(p : Int)) * |q| := mul_le_mul_of_nonneg_left hl (by positivity)
    linarith
  · rw [max_eq_right (by omega), zpow_add_one₀ (two_ne_zero)]
    linarith

/-- A rounded value is no larger than the exact one plus half the spacing. -/
theorem roundBinary_abs_le (p : Nat) (emin emax : Int) (q r : ℚ)
    (h : roundBinary p emin emax q = some r) :
    |r| ≤ (1 + (2 : ℚ) ^ (-(p : Int))) * |q| + (2 : ℚ) ^ (emin - (p : Int)) := by
  by_cases hq : q = 0
  · subst hq
    have : r = 0 := by
      unfold roundBinary at h
      rw [if_pos rfl] at h
      injection h with h
      exact h.symm
    subst this
    simp only [abs_zero, mul_zero, zero_add]
    positivity
  · have herr := roundBinary_error p emin emax q r h
    have hquant := quantum_half_le p emin q hq
    have : |r| ≤ |r - q| + |q| := by
      have := abs_add (r - q) q
      simpa using this
    linarith

/-- Rounding gives a finite value when the exact one plus half the spacing stays below
`2 ^ (emax + 1)`. -/
theorem roundBinary_isSome (p : Nat) (emin emax : Int) (q : ℚ)
    (hb : (1 + (2 : ℚ) ^ (-(p : Int))) * |q| + (2 : ℚ) ^ (emin - (p : Int))
      < (2 : ℚ) ^ (emax + 1)) : ∃ r, roundBinary p emin emax q = some r := by
  unfold roundBinary
  by_cases hq : q = 0
  · exact ⟨0, by rw [if_pos hq]⟩
  · rw [if_neg hq]
    have herr := roundMagnitude_error p emin q
    have hquant := quantum_half_le p emin q hq
    have hle : roundMagnitude p emin q ≤ |q| + quantum p emin q / 2 := by
      have := (abs_le.mp herr).2
      linarith
    have hlt : roundMagnitude p emin q < (2 : ℚ) ^ (emax + 1) := by linarith
    rw [if_pos hlt]
    exact ⟨_, rfl⟩

/-- A value of magnitude at most `2 ^ 127` converts to a finite `float`. -/
theorem toFloat_isSome (q : ℚ) (h : |q| ≤ (2 : ℚ) ^ (127 : Int)) : ∃ r, toFloat q = some r := by
  apply roundBinary_isSome
  have h1 : (1 + (2 : ℚ) ^ (-((24 : Nat) : Int))) * |q|
      ≤ (1 + (2 : ℚ) ^ (-((24 : Nat) : Int))) * (2 : ℚ) ^ (127 : Int) :=
    mul_le_mul_of_nonneg_left h (by positivity)
  have h2 : (1 + (2 : ℚ) ^ (-((24 : Nat) : Int))) * (2 : ℚ) ^ (127 : Int)
      + (2 : ℚ) ^ ((-126 : Int) - ((24 : Nat) : Int)) < (2 : ℚ) ^ ((127 : Int) + 1) := by
    norm_num
  linarith

/-- A value of magnitude at most `2 ^ 1023` converts to a finite `double`. -/
theorem toDouble_isSome (q : ℚ) (h : |q| ≤ (2 : ℚ) ^ (1023 : Int)) :
    ∃ r, toDouble q = some r := by
  apply roundBinary_isSome
  have h1 : (1 + (2 : ℚ) ^ (-((53 : Nat) : Int))) * |q|
      ≤ (1 + (2 : ℚ) ^ (-((53 : Nat) : Int))) * (2 : ℚ) ^ (1023 : Int) :=
    mul_le_mul_of_nonneg_left h (by positivity)
  have h2 : (1 + (2 : ℚ) ^ (-((53 : Nat) : Int))) * (2 : ℚ) ^ (1023 : Int)
      + (2 : ℚ) ^ ((-1022 : Int) - ((53 : Nat) : Int)) < (2 : ℚ) ^ ((1023 : Int) + 1) := by
    norm_num
  linarith

/-- A finite `float` is at most twice the exact value, plus one. -/
theorem toFloat_abs_le (q r : ℚ) (h : toFloat q = some r) : |r| ≤ 2 * |q| + 1 := by
  have h1 := roundBinary_abs_le 24 (-126) 127 q r h
  have h2 : (1 + (2 : ℚ) ^ (-((24 : Nat) : Int))) ≤ 2 := by norm_num
  have h3 : (2 : ℚ) ^ ((-126 : Int) - ((24 : Nat) : Int)) ≤ 1 :=
    zpow_le_one_of_nonpos₀ (by norm_num) (by norm_num)
  have h4 : (1 + (2 : ℚ) ^ (-((24 : Nat) : Int))) * |q| ≤ 2 * |q| :=
    mul_le_mul_of_nonneg_right h2 (abs_nonneg _)
  linarith

/-- A finite `double` is at most twice the exact value, plus one. -/
theorem toDouble_abs_le (q r : ℚ) (h : toDouble q = some r) : |r| ≤ 2 * |q| + 1 := by
  have h1 := roundBinary_abs_le 53 (-1022) 1023 q r h
  have h2 : (1 + (2 : ℚ) ^ (-((53 : Nat) : Int))) ≤ 2 := by norm_num
  have h3 : (2 : ℚ) ^ ((-1022 : Int) - ((53 : Nat) : Int)) ≤ 1 :=
    zpow_le_one_of_nonpos₀ (by norm_num) (by norm_num)
  have h4 : (1 + (2 : ℚ) ^ (-((53 : Nat) : Int))) * |q| ≤ 2 * |q| :=
    mul_le_mul_of_nonneg_right h2 (abs_nonneg _)
  linarith

/-- Up to level 255, the largest an 8-bit level can be, `scale_factor ^ level` stays below
`2 ^ 68`. -/
theorem scale_power_le (level : Nat) (h : level ≤ 255) :
    (5033165 / 4194304 : ℚ) ^ level ≤ (2 : ℚ) ^ (68 : Nat) := by
  have h1 : (5033165 / 4194304 : ℚ) ^ level ≤ (5033165 / 4194304 : ℚ) ^ 255 :=
    pow_le_pow_right₀ (by norm_num) h
  have h3 : (5033165 / 4194304 : ℚ) ^ 255 ≤ (2 : ℚ) ^ (68 : Nat) := by
    norm_num
  exact le_trans h1 h3

/-- The `float` scale of a level up to 255 is finite and at most `2 ^ 72`. -/
theorem levelScale_isSome (level : Nat) (h : level ≤ 255) :
    ∃ s, levelScale level = some s ∧ |s| ≤ (2 : ℚ) ^ (72 : Nat) := by
  have hP := scale_power_le level h
  have hP1 : (1 : ℚ) ≤ (5033165 / 4194304 : ℚ) ^ level := one_le_pow₀ (by norm_num)
  have hPabs : |(5033165 / 4194304 : ℚ) ^ level| = (5033165 / 4194304 : ℚ) ^ level :=
    abs_of_pos (by linarith)
  obtain ⟨d, hd⟩ := toDouble_isSome ((5033165 / 4194304 : ℚ) ^ level) (by
    rw [hPabs]
    have : (2 : ℚ) ^ (68 : Nat) ≤ (2 : ℚ) ^ (1023 : Int) := by
      rw [← zpow_natCast]
      exact zpow_le_zpow_right₀ (by norm_num) (by norm_num)
    linarith)
  have hdle := toDouble_abs_le _ d hd
  rw [hPabs] at hdle
  have hd70 : |d| ≤ (2 : ℚ) ^ (70 : Nat) := by
    have : 2 * (2 : ℚ) ^ (68 : Nat) + 1 ≤ (2 : ℚ) ^ (70 : Nat) := by norm_num
    linarith
  obtain ⟨s, hs⟩ := toFloat_isSome d (by
    have : (2 : ℚ) ^ (70 : Nat) ≤ (2 : ℚ) ^ (127 : Int) := by
      rw [← zpow_natCast]
      exact zpow_le_zpow_right₀ (by norm_num) (by norm_num)
    linarith)
  have hsle := toFloat_abs_le d s hs
  refine ⟨s, ?_, ?_⟩
  · unfold levelScale
    rw [toFloat_scale_factor]
    simp only [Option.some_bind, std_pow, hd, hs]
  · have : 2 * (2 : ℚ) ^ (70 : Nat) + 1 ≤ (2 : ℚ) ^ (72 : Nat) := by norm_num
    linarith

/-- Up to level 255 and for a coordinate of magnitude at most `2 ^ 31`, the scaled coordinate
is a finite `float`. -/
theorem scaled_coordinate_isSome (level : Nat) (x : Int) (hl : level ≤ 255)
    (hx : |x| ≤ 2 ^ 31) : ∃ q, fmul (levelScale level) (toFloat (x : ℚ)) = some q := by
  obtain ⟨s, hs, hsle⟩ := levelScale_isSome level hl
  have hxq : |(x : ℚ)| ≤ (2 : ℚ) ^ (31 : Nat) := by
    have h1 : ((|x| : Int) : ℚ) ≤ ((2 ^ 31 : Int) : ℚ) := by exact_mod_cast hx
    have h2 : |(x : ℚ)| = ((|x| : Int) : ℚ) := by push_cast; rfl
    rw [h2]
    calc ((|x| : Int) : ℚ) ≤ ((2 ^ 31 : Int) : ℚ) := h1
      _ = (2 : ℚ) ^ (31 : Nat) := by norm_num
  obtain ⟨xf, hxf⟩ := toFloat_isSome (x : ℚ) (by
    have : (2 : ℚ) ^ (31 : Nat) ≤ (2 : ℚ) ^ (127 : Int) := by
      rw [← zpow_natCast]
      exact zpow_le_zpow_right₀ (by norm_num) (by norm_num)
    linarith)
  have hxfle := toFloat_abs_le _ xf hxf
  have hxf33 : |xf| ≤ (2 : ℚ) ^ (33 : Nat) := by
    have : 2 * (2 : ℚ) ^ (31 : Nat) + 1 ≤ (2 : ℚ) ^ (33 : Nat) := by norm_num
    linarith
  obtain ⟨q, hq⟩ := toFloat_isSome (s * xf) (by
    rw [abs_mul]
    have h1 : |s| * |xf| ≤ (2 : ℚ) ^ (72 : Nat) * (2 : ℚ) ^ (33 : Nat) :=
      mul_le_mul hsle hxf33 (abs_nonneg _) (by positivity)
    have h2 : (2 : ℚ) ^ (72 : Nat) * (2 : ℚ) ^ (33 : Nat) ≤ (2 : ℚ) ^ (127 : Int) := by
      norm_num
    linarith)
  exact ⟨q, by rw [hs, hxf]; simpa [fmul] using hq⟩

/-- Up to level 255 the display size is a finite `float`. -/
theorem display_size_isSome (level : Nat) (hl : level ≤ 255) :
    ∃ q, fmul (toFloat 7) (levelScale level) = some q := by
  obtain ⟨s, hs, hsle⟩ := levelScale_isSome level hl
  obtain ⟨q, hq⟩ := toFloat_isSome (7 * s) (by
    rw [abs_mul, abs_of_pos (by norm_num : (0 : ℚ) < 7)]
    have h1 : 7 * |s| ≤ 7 * (2 : ℚ) ^ (72 : Nat) := mul_le_mul_of_nonneg_left hsle (by norm_num)
    have h2 : 7 * (2 : ℚ) ^ (72 : Nat) ≤ (2 : ℚ) ^ (127 : Int) := by norm_num
    linarith)
  exact ⟨q, by rw [hs, toFloat_seven]; simpa [fmul] using hq⟩

/-- For an angle of magnitude at most `2 ^ 100` the angle in degrees is a finite `float`. -/
theorem degrees_isSome (angle : ℚ) (ha : |angle| ≤ (2 : ℚ) ^ (100 : Nat)) :
    ∃ q, fmul (some (469367 / 8192)) (some angle) = some q := by
  obtain ⟨q, hq⟩ := toFloat_isSome (469367 / 8192 * angle) (by
    rw [abs_mul, abs_of_pos (by norm_num : (0 : ℚ) < 469367 / 8192)]
    have h1 : (469367 / 8192 : ℚ) * |angle| ≤ 469367 / 8192 * (2 : ℚ) ^ (100 : Nat) :=
      mul_le_mul_of_nonneg_left ha (by norm_num)
    have h2 : (469367 / 8192 : ℚ) * (2 : ℚ) ^ (100 : Nat) ≤ (2 : ℚ) ^ (127 : Int) := by norm_num
    linarith)
  exact ⟨q, by simpa [fmul] using hq⟩

/-- The `float` scale of level 0 is 1. -/
theorem levelScale_zero : levelScale 0 = some 1 := by decide!

/-- For the levels `0 .. 7` of an 8-level pyramid the `float` scale does not depend on the last
bits of `std::pow`: a `double` up to two spacings away from the nearest one converts to the
same `float`. -/
theorem levelScale_pow_robust :
    (List.range 8).all (fun n =>
      match toDouble ((5033165 / 4194304 : ℚ) ^ n) with
      | some d => [-2, -1, 0, 1, 2].all (fun k : ℚ =>
          decide (toFloat (d + k * quantum 53 (-1022) d) = levelScale n))
      | none => false) = true := by decide!

/-! ## Theorems: the keypoint conversion -/

/-- A loop that appends one converted element per input element is a map. -/
theorem foldl_append_singleton {α β : Type} (g : α → β) (l : List α) (init : List β) :
    l.foldl (fun acc a => acc ++ [g a]) init = init ++ l.map g := by
  induction l generalizing init with
  | nil => simp
  | cons a t ih => simp [ih]

/-- The first conversion loop as a map. -/
theorem converted_kps_eq_map (kps : List Keypoint) :
    converted_kps kps = kps.map (fun kp =>
      { x := fmul (levelScale kp.scale) (toFloat (kp.x : ℚ)),
        y := fmul (levelScale kp.scale) (toFloat (kp.y : ℚ)),
        size := fmul (toFloat 7) (levelScale kp.scale),
        angle := fmul (some (469367 / 8192)) (some kp.angle),
        response := toFloat (kp.score : ℚ) }) := by
  unfold converted_kps
  rw [foldl_append_singleton, angleFactor_eq]
  simp only [List.nil_append]
  rfl

/-- The two conversion loops compute the same list. -/
theorem converted_kps2_eq (kps : List Keypoint) : converted_kps2 kps = converted_kps kps := rfl

/-- The angle the driver gives a keypoint, in closed form. -/
theorem convertedAngle_eq (kp : Keypoint) :
    convertedAngle kp = fmul (some (469367 / 8192)) (some kp.angle) := by
  simp [convertedAngle, converted_kps_eq_map]

/-- C6 (amended): the driver's conversion of a keypoint list is an order-preserving map: the
converted list is as long as `kps` and its `j`-th entry has the position computed from the
`j`-th keypoint in `float` arithmetic, the rounded products of `x` and `y` with the `float`
`scale` of the level. That position is finite for a level up to 255 and coordinates up to
`2 ^ 31` in magnitude, lies within `2 ^ (-21)` (relative) of
`(scale_factor^level * x, scale_factor^level * y)`, with `scale_factor` the `float` `1.2f`, a
level-0 keypoint with coordinates up to `2 ^ 24` in magnitude keeps its coordinates, and the
second image's loop applies the same rule. -/
theorem C6_conversion_is_order_preserving_map (kps : List Keypoint) (j : Nat) (kp : Keypoint)
    (hj : kps[j]? = some kp) :
    (converted_kps kps).length = kps.length ∧
    (converted_kps2 kps).length = kps.length ∧
    toFloat scale_factor = some (5033165 / 4194304) ∧
    ∃ c, (converted_kps kps)[j]? = some c ∧ (converted_kps2 kps)[j]? = some c ∧
      c.x = fmul (levelScale kp.scale) (toFloat (kp.x : ℚ)) ∧
      c.y = fmul (levelScale kp.scale) (toFloat (kp.y : ℚ)) ∧
      (kp.scale ≤ 255 → |kp.x| ≤ 2 ^ 31 → ∃ q, c.x = some q) ∧
      (kp.scale ≤ 255 → |kp.y| ≤ 2 ^ 31 → ∃ q, c.y = some q) ∧
      (∀ q, c.x = some q →
        |q - (5033165 / 4194304 : ℚ) ^ kp.scale * (kp.x : ℚ)|
          ≤ (2 : ℚ) ^ (-21 : Int) * |(5033165 / 4194304 : ℚ) ^ kp.scale * (kp.x : ℚ)|) ∧
      (∀ q, c.y = some q →
        |q - (5033165 / 4194304 : ℚ) ^ kp.scale * (kp.y : ℚ)|
          ≤ (2 : ℚ) ^ (-21 : Int) * |(5033165 / 4194304 : ℚ) ^ kp.scale * (kp.y : ℚ)|) ∧
      (kp.scale = 0 → |kp.x| ≤ 2 ^ 24 → c.x = some (kp.x : ℚ)) ∧
      (kp.scale = 0 → |kp.y| ≤ 2 ^ 24 → c.y = some (kp.y : ℚ)) := by
  have hlevel0 : ∀ z : Int, |z| ≤ 2 ^ 24 →
      fmul (levelScale 0) (toFloat (z : ℚ)) = some (z : ℚ) := by
    intro z hz
    rw [levelScale_zero, toFloat_intCast z hz, fmul_one_left, toFloat_intCast z hz]
  rw [converted_kps2_eq, converted_kps_eq_map]
  refine ⟨by simp, by simp, toFloat_scale_factor, _, by rw [List.getElem?_map, hj]; rfl,
    by rw [List.getElem?_map, hj]; rfl, rfl, rfl, ?_, ?_, ?_, ?_, ?_, ?_⟩
  · exact fun hl hx => scaled_coordinate_isSome kp.scale kp.x hl hx
  · exact fun hl hy => scaled_coordinate_isSome kp.scale kp.y hl hy
  · exact fun q hq => scaled_coordinate_error kp.scale kp.x q hq
  · exact fun q hq => scaled_coordinate_error kp.scale kp.y q hq
  · intro h0 hx
    show fmul (levelScale kp.scale) (toFloat (kp.x : ℚ)) = some (kp.x : ℚ)
    rw [h0]
    exact hlevel0 kp.x hx
  · intro h0 hy
    show fmul (levelScale kp.scale) (toFloat (kp.y : ℚ)) = some (kp.y : ℚ)
    rw [h0]
    exact hlevel0 kp.y hy

/-- Witness of C6: a level-0 keypoint followed by a level-2 keypoint, read at index 1. -/
theorem C6_conversion_is_order_preserving_map_witness :
    (converted_kps [⟨3, 4, 0, 0, 9⟩, ⟨10, 20, 2, 1, 5⟩]).length = 2 ∧
    ∃ c, (converted_kps [⟨3, 4, 0, 0, 9⟩, ⟨10, 20, 2, 1, 5⟩])[1]? = some c ∧
      (converted_kps2 [⟨3, 4, 0, 0, 9⟩, ⟨10, 20, 2, 1, 5⟩])[1]? = some c ∧
      c.x = fmul (levelScale 2) (toFloat ((10 : Int) : ℚ)) ∧
      c.y = fmul (levelScale 2) (toFloat ((20 : Int) : ℚ)) ∧
      (∃ q, c.x = some q) ∧ (∃ q, c.y = some q) :=
  match C6_conversion_is_order_preserving_map [⟨3, 4, 0, 0, 9⟩, ⟨10, 20, 2, 1, 5⟩] 1
    ⟨10, 20, 2, 1, 5⟩ rfl with
  | ⟨hlen, _, _, c, h1, h2, hx, hy, fx, fy, _⟩ =>
    ⟨hlen, c, h1, h2, hx, hy, fx (by decide) (by decide), fy (by decide) (by decide)⟩

/-- C6 as stated fails: the level-2 keypoint `(10, 20)` is placed at
`(15099495/1048576, 15099495/524288)`, which is not `scale_factor^2 * (10, 20)`, for
`scale_factor` read as `1.2` or as the `float` `1.2f`; and the level-0 keypoint with
`x = 16777217 = 2^24 + 1` is placed at `x = 16777216`. -/
theorem C6_exact_position_fails :
    (converted_kps [⟨10, 20, 2, 1, 5⟩]).map (fun c => (c.x, c.y))
      = [(some (15099495 / 1048576), some (15099495 / 524288))] ∧
    (15099495 / 1048576 : ℚ) ≠ scale_factor ^ 2 * 10 ∧
    (15099495 / 1048576 : ℚ) ≠ (5033165 / 4194304) ^ 2 * 10 ∧
    (15099495 / 524288 : ℚ) ≠ scale_factor ^ 2 * 20 ∧
    (15099495 / 524288 : ℚ) ≠ (5033165 / 4194304) ^ 2 * 20 ∧
    (converted_kps [⟨16777217, 4, 0, 0, 9⟩]).map (fun c => c.x) = [some 16777216] ∧
    (16777216 : ℚ) ≠ ((16777217 : Int) : ℚ) := by
  refine ⟨by decide!, ?_, ?_, ?_, ?_, by decide!, ?_⟩ <;> norm_num [scale_factor]

/-- C9 (amended): for every keypoint the converted keypoint carries, in both loops, the angle
in degrees as the rounded `float` product of the `float` constant `180.0f / 3.1415926535f`
(`469367/8192`) with `kp.angle`: 0 at angle 0, finite for an angle up to `2 ^ 100`, and within
`2 ^ (-22)` (relative) of `kp.angle * 180 / 3.1415926535` for an angle of magnitude
`2 ^ (-130)` or more, so linear in the angle up to rounding; the display size, the rounded
product of 7 with the `float` scale of the level, finite up to level 255 and within
`2 ^ (-22)` of `7 * scale_factor^level`; and the score converted to `float`, unchanged for a
score up to `2 ^ 24` in magnitude. -/
theorem C9_converted_angle_size_score (kps : List Keypoint) (j : Nat) (kp : Keypoint)
    (hj : kps[j]? = some kp) :
    ((toFloat 180).bind (fun a => (toFloat 3.1415926535).bind (fun b => fdiv a b)))
      = some (469367 / 8192) ∧
    ∃ c, (converted_kps kps)[j]? = some c ∧ (converted_kps2 kps)[j]? = some c ∧
      c.angle = fmul (some (469367 / 8192)) (some kp.angle) ∧
      c.angle = convertedAngle kp ∧
      (kp.angle = 0 → c.angle = some 0) ∧
      (|kp.angle| ≤ (2 : ℚ) ^ (100 : Nat) → ∃ q, c.angle = some q) ∧
      (∀ q, c.angle = some q → (2 : ℚ) ^ (-130 : Int) ≤ |kp.angle| →
        |q - kp.angle * 180 / 3.1415926535|
          ≤ (2 : ℚ) ^ (-22 : Int) * |kp.angle * 180 / 3.1415926535|) ∧
      c.size = fmul (toFloat 7) (levelScale kp.scale) ∧
      (kp.scale ≤ 255 → ∃ q, c.size = some q) ∧
      (∀ q, c.size = some q →
        |q - 7 * (5033165 / 4194304 : ℚ) ^ kp.scale|
          ≤ (2 : ℚ) ^ (-22 : Int) * |7 * (5033165 / 4194304 : ℚ) ^ kp.scale|) ∧
      c.response = toFloat (kp.score : ℚ) ∧
      (|kp.score| ≤ 2 ^ 24 → c.response = some (kp.score : ℚ)) := by
  rw [converted_kps2_eq, converted_kps_eq_map]
  refine ⟨angleFactor_eq, _, by rw [List.getElem?_map, hj]; rfl,
    by rw [List.getElem?_map, hj]; rfl, rfl, (convertedAngle_eq kp).symm, ?_, ?_, ?_, rfl, ?_,
    ?_, rfl, ?_⟩
  · intro h0
    show fmul (some (469367 / 8192)) (some kp.angle) = some 0
    rw [h0]
    exact fmul_zero_right _
  · exact fun ha => degrees_isSome kp.angle ha
  · exact fun q hq hn => degrees_error kp.angle q hq hn
  · exact fun hl => display_size_isSome kp.scale hl
  · exact fun q hq => display_size_error kp.scale q hq
  · exact fun hs => toFloat_intCast kp.score hs

/-- Witness of C9: a level-2 keypoint of angle 1 rad and score 5, after a level-0 keypoint. -/
theorem C9_converted_angle_size_score_witness :
    ∃ c, (converted_kps [⟨3, 4, 0, 0, 9⟩, ⟨10, 20, 2, 1, 5⟩])[1]? = some c ∧
      c.angle = fmul (some (469367 / 8192)) (some 1) ∧
      (∃ q, c.angle = some q) ∧
      c.size = fmul (toFloat 7) (levelScale 2) ∧ (∃ q, c.size = some q) ∧
      c.response = some ((5 : Int) : ℚ) :=
  match (C9_converted_angle_size_score [⟨3, 4, 0, 0, 9⟩, ⟨10, 20, 2, 1, 5⟩] 1
    ⟨10, 20, 2, 1, 5⟩ rfl).2 with
  | ⟨c, h1, _, ha, _, _, fa, _, hs, fs, _, _, hr⟩ =>
    ⟨c, h1, ha, fa (by norm_num), hs, fs (by decide), hr (by decide)⟩

/-- C9 as stated fails: at angle 1 rad and level 2 the converted angle is `469367/8192`, not
`1 * 180 / 3.1415926535`, and the size is `5284823/524288`, not `7 * scale_factor^2` for
`scale_factor` read as `1.2` or as the `float` `1.2f`; the angle map is not additive at
`1 + 1/64`; and the score `16777217 = 2^24 + 1` becomes the response `16777216`. -/
theorem C9_exact_formula_fails :
    (converted_kps [⟨10, 20, 2, 1, 5⟩]).map (fun c => (c.angle, c.size))
      = [(some (469367 / 8192), some (5284823 / 524288))] ∧
    (469367 / 8192 : ℚ) ≠ 1 * 180 / 3.1415926535 ∧
    (5284823 / 524288 : ℚ) ≠ 7 * scale_factor ^ 2 ∧
    (5284823 / 524288 : ℚ) ≠ 7 * (5033165 / 4194304) ^ 2 ∧
    convertedAngle ⟨10, 20, 2, 1 + 1 / 64, 5⟩ = some (3813607 / 65536) ∧
    convertedAngle ⟨10, 20, 2, 1, 5⟩ = some (469367 / 8192) ∧
    convertedAngle ⟨10, 20, 2, 1 / 64, 5⟩ = some (469367 / 524288) ∧
    (3813607 / 65536 : ℚ) ≠ 469367 / 8192 + 469367 / 524288 ∧
    (converted_kps [⟨10, 20, 2, 1, 16777217⟩]).map (fun c => c.response) = [some 16777216] ∧
    (16777216 : ℚ) ≠ ((16777217 : Int) : ℚ) := by
  refine ⟨by decide!, ?_, ?_, ?_, by decide!, by decide!, by decide!, ?_, by decide!, ?_⟩ <;>
    norm_num [scale_factor]

end koral
